import Mathlib

/-!
# Verification of the doai-me device-farm controller

A shallow embedding, in Lean 4, of the parts of the doai-me webapp that its
specification makes claims about: the YouTube error-recovery state machine
(`apps/worker/youtube/error_recovery.py` and `constants.py`), the Appium
session pool (`apps/worker/appium_core/session_manager.py`), the selector
fallback engine (`appium_core/selectors.py`), the evidence recorder
(`appium_core/evidence.py`), the probabilistic interactions and the job
orchestrator (`youtube/youtube_actions.py`, `youtube/bot_orchestrator.py`),
and the API-side task service (`apps/server/services/task_service.py`).

Machine integers are modelled as `Nat`; Python dictionaries and sets as
association lists and `Finset`s; fallible calls as `Except`/`Option`; the
wall clock and the Appium driver as explicit oracle inputs.
-/

set_option autoImplicit false

namespace DoaiMe

/-! ## Error codes and recovery constants (`youtube/constants.py`) -/

namespace ErrorCode

def NETWORK_DISCONNECTED : String := "E1001"
def REQUEST_TIMEOUT : String := "E1002"
def RATE_LIMITED : String := "E1003"
def VIDEO_UNAVAILABLE : String := "E2001"
def VIDEO_REGION_BLOCKED : String := "E2002"
def VIDEO_AGE_RESTRICTED : String := "E2003"
def PLAYBACK_STALLED : String := "E2004"
def APP_CRASH : String := "E3001"
def MEMORY_LOW : String := "E3002"
def SCREEN_LOCKED : String := "E3003"
def BATTERY_LOW : String := "E3004"
def UNKNOWN : String := "E4001"
def SESSION_EXPIRED : String := "E4002"
def APPIUM_ERROR : String := "E4003"

end ErrorCode

def RETRYABLE_ERROR_CODES : List String :=
  [ErrorCode.NETWORK_DISCONNECTED, ErrorCode.REQUEST_TIMEOUT,
   ErrorCode.RATE_LIMITED, ErrorCode.PLAYBACK_STALLED, ErrorCode.APP_CRASH,
   ErrorCode.SCREEN_LOCKED, ErrorCode.UNKNOWN, ErrorCode.SESSION_EXPIRED,
   ErrorCode.APPIUM_ERROR]

def NON_RETRYABLE_ERROR_CODES : List String :=
  [ErrorCode.VIDEO_UNAVAILABLE, ErrorCode.VIDEO_REGION_BLOCKED,
   ErrorCode.MEMORY_LOW, ErrorCode.BATTERY_LOW]

def MAX_RETRY_COUNT : Nat := 3

def RETRY_BASE_DELAY_SEC : Nat := 5

def RETRY_MAX_DELAY_SEC : Nat := 60

def STALL_DETECTION_TIMEOUT_SEC : Nat := 120

def NETWORK_WAIT_TIMEOUT_SEC : Nat := 300

def NETWORK_CHECK_INTERVAL_SEC : Nat := 10

/-! ## Error recovery (`youtube/error_recovery.py`)

`RecoveryAction` mirrors the dataclass of the same name; delays in the
source are numerically integral, so `delay` is a `Nat`. -/

structure RecoveryAction where
  action : String
  delay : Nat
  new_retry_count : Nat
  error_code : String
  message : String
deriving Repr, DecidableEq

/-- `ErrorRecovery.handle_error` (error_recovery.py lines 136-220), translated
branch for branch.  The driver and logging are irrelevant to the returned
action and are omitted. -/
def handle_error (error_code : String) (retry_count : Nat) : RecoveryAction :=
  if error_code ∈ NON_RETRYABLE_ERROR_CODES then
    { action := "fail", delay := 0, new_retry_count := retry_count,
      error_code := error_code,
      message := "Non-retryable error: " ++ error_code }
  else if retry_count ≥ MAX_RETRY_COUNT then
    { action := "fail", delay := 0, new_retry_count := retry_count,
      error_code := error_code,
      message := "Max retries exceeded for " ++ error_code }
  else if error_code = ErrorCode.NETWORK_DISCONNECTED then
    { action := "wait_network", delay := NETWORK_CHECK_INTERVAL_SEC,
      new_retry_count := retry_count + 1, error_code := error_code,
      message := "Waiting for network recovery" }
  else if error_code = ErrorCode.APP_CRASH then
    { action := "restart_app", delay := 5, new_retry_count := retry_count + 1,
      error_code := error_code, message := "Restarting YouTube after crash" }
  else if error_code = ErrorCode.SCREEN_LOCKED then
    { action := "unlock_screen", delay := 2, new_retry_count := retry_count + 1,
      error_code := error_code, message := "Unlocking screen" }
  else if error_code = ErrorCode.SESSION_EXPIRED ∨ error_code = ErrorCode.APPIUM_ERROR then
    { action := "fail", delay := 0, new_retry_count := retry_count,
      error_code := error_code,
      message := "Session/Appium error requires session recreation: " ++ error_code }
  else
    { action := "retry",
      delay := min (RETRY_BASE_DELAY_SEC * 2 ^ retry_count) RETRY_MAX_DELAY_SEC,
      new_retry_count := retry_count + 1, error_code := error_code,
      message := "Retrying" }

/-- `ErrorRecovery.is_retryable` (error_recovery.py lines 132-134). -/
def is_retryable (error_code : String) : Bool :=
  error_code ∈ RETRYABLE_ERROR_CODES

/-- **C1.** `handle_error(c, k)` returns `fail` whenever `c` is in the
non-retryable set `{E2001, E2002, E3002, E3004}` or `k ≥ MAX_RETRY (= 3)`;
otherwise it returns `wait_network` for E1001, `restart_app` for E3001,
`unlock_screen` for E3003, `fail` for E4002 and E4003, and for every
remaining code `retry` with delay `min(5·2^k, 60)` seconds. -/
theorem handle_error_action_spec (c : String) (k : Nat) :
    ((c ∈ NON_RETRYABLE_ERROR_CODES ∨ MAX_RETRY_COUNT ≤ k) →
      (handle_error c k).action = "fail")
    ∧ (c ∉ NON_RETRYABLE_ERROR_CODES → k < MAX_RETRY_COUNT →
        (c = "E1001" → (handle_error c k).action = "wait_network")
        ∧ (c = "E3001" → (handle_error c k).action = "restart_app")
        ∧ (c = "E3003" → (handle_error c k).action = "unlock_screen")
        ∧ (c = "E4002" ∨ c = "E4003" → (handle_error c k).action = "fail")
        ∧ (c ∉ ["E1001", "E3001", "E3003", "E4002", "E4003"] →
            (handle_error c k).action = "retry"
            ∧ (handle_error c k).delay = min (5 * 2 ^ k) 60)) := by
  unfold handle_error
  constructor
  · rintro (hc | hk)
    · simp [hc]
    · by_cases h : c ∈ NON_RETRYABLE_ERROR_CODES
      · simp [h]
      · rw [if_neg h, if_pos hk]
  · intro hc hk
    have hk' : ¬ (MAX_RETRY_COUNT ≤ k) := Nat.not_le.mpr hk
    refine ⟨fun hcc => ?_, fun hcc => ?_, fun hcc => ?_, fun hcc => ?_,
      fun hcc => ?_⟩
    · subst hcc; simp [hc, hk', ErrorCode.NETWORK_DISCONNECTED]
    · subst hcc
      simp [hc, hk', ErrorCode.NETWORK_DISCONNECTED, ErrorCode.APP_CRASH]
    · subst hcc
      simp [hc, hk', ErrorCode.NETWORK_DISCONNECTED, ErrorCode.APP_CRASH,
        ErrorCode.SCREEN_LOCKED]
    · rcases hcc with h | h <;> subst h <;>
        simp [hc, hk', ErrorCode.NETWORK_DISCONNECTED, ErrorCode.APP_CRASH,
          ErrorCode.SCREEN_LOCKED, ErrorCode.SESSION_EXPIRED,
          ErrorCode.APPIUM_ERROR]
    · simp only [List.mem_cons, List.not_mem_nil, or_false, not_or] at hcc
      obtain ⟨h1, h2, h3, h4, h5⟩ := hcc
      simp [hc, hk', h1, h2, h3, h4, h5, ErrorCode.NETWORK_DISCONNECTED,
        ErrorCode.APP_CRASH, ErrorCode.SCREEN_LOCKED,
        ErrorCode.SESSION_EXPIRED, ErrorCode.APPIUM_ERROR,
        RETRY_BASE_DELAY_SEC, RETRY_MAX_DELAY_SEC]

/-- Witness for C1: the stalled-playback code E2004 at retry count 1 is
retried with delay `min(5·2¹, 60) = 10`. -/
theorem handle_error_action_spec_witness :
    (handle_error "E2004" 1).action = "retry"
    ∧ (handle_error "E2004" 1).delay = 10 := by
  have h := (handle_error_action_spec "E2004" 1).2 (by decide) (by decide)
  have h5 := h.2.2.2.2 (by decide)
  exact ⟨h5.1, h5.2⟩

/-! ## Session pool (`appium_core/session_manager.py`)

The pool state carries the free `systemPort` pool (`_port_pool`, a Python
set modelled as a `Finset`), the device→port association `_used_ports`
(a Python dict modelled as an association list) and the keys of the
device→driver map `_sessions` (the driver handles themselves do not affect
the pool claims).  Driver behaviour — whether an existing session is still
live, whether `webdriver.Remote` raises, whether `driver.quit()`
raises — enters as explicit Boolean oracles. -/

abbrev Device := String

structure SessionManager where
  max_sessions : Nat
  port_pool : Finset Nat
  used_ports : List (Device × Nat)
  sessions : List Device
deriving DecidableEq

/-- `SessionManager.__init__`: the port pool is
`set(range(system_port_start, system_port_end + 1))`. -/
def SessionManager.init (system_port_start system_port_end max_sessions : Nat) :
    SessionManager :=
  { max_sessions := max_sessions
    port_pool := Finset.Icc system_port_start system_port_end
    used_ports := []
    sessions := [] }

/-- Python `dict` lookup `self._used_ports[device_udid]` on the association
list (first matching key). -/
def lookupPort : List (Device × Nat) → Device → Option Nat
  | [], _ => none
  | (k, v) :: rest, d => if k = d then some v else lookupPort rest d

/-- Python `dict.pop(device_udid, None)` key removal. -/
def removeKey (l : List (Device × Nat)) (d : Device) : List (Device × Nat) :=
  l.filter (fun q => decide (q.1 ≠ d))

/-- `SessionManager._allocate_port`: reuse an already-allocated port, else
take the smallest free port; `none` models the `RuntimeError` raised on an
empty pool (no state is mutated on that path). -/
def _allocate_port (s : SessionManager) (d : Device) :
    Option (Nat × SessionManager) :=
  match lookupPort s.used_ports d with
  | some p => some (p, s)
  | none =>
    if h : s.port_pool.Nonempty then
      let p := s.port_pool.min' h
      some (p, { s with port_pool := s.port_pool.erase p,
                        used_ports := (d, p) :: s.used_ports })
    else none

/-- `SessionManager._release_port`. -/
def _release_port (s : SessionManager) (d : Device) : SessionManager :=
  match lookupPort s.used_ports d with
  | none => s
  | some p => { s with used_ports := removeKey s.used_ports d,
                       port_pool := insert p s.port_pool }

/-- `SessionManager._cleanup_session`: pop the driver, best-effort
`driver.quit()` (its failure is caught and ignored — the `quit_ok` oracle
does not influence the state), then release the port unconditionally. -/
def _cleanup_session (s : SessionManager) (d : Device) (_quit_ok : Bool) :
    SessionManager :=
  _release_port
    { s with sessions := s.sessions.filter (fun x => decide (x ≠ d)) } d

/-- `SessionManager.close_session`. -/
def close_session (s : SessionManager) (d : Device) (quit_ok : Bool) :
    SessionManager :=
  _cleanup_session s d quit_ok

/-- The fresh-creation tail of `SessionManager.create_session` (lines
112-152): cap check, port allocation, capability construction and driver
creation; on driver failure the port is released and the error propagates. -/
def create_fresh (s : SessionManager) (d : Device) (driver_ok : Bool) :
    Except String Unit × SessionManager :=
  if s.sessions.length ≥ s.max_sessions then
    (Except.error "Max sessions reached", s)
  else
    match _allocate_port s d with
    | none => (Except.error "No available systemPort in pool", s)
    | some (_, s1) =>
      if driver_ok then
        (Except.ok (), { s1 with sessions := d :: s1.sessions })
      else
        (Except.error "Failed to create session", _release_port s1 d)

/-- `SessionManager.create_session`: reuse a live session, purge a stale
one and recreate, else create fresh.  `existing_live` is the outcome of the
`driver.session_id` probe, `driver_ok` of `webdriver.Remote`. -/
def create_session (s : SessionManager) (d : Device)
    (existing_live driver_ok : Bool) : Except String Unit × SessionManager :=
  if d ∈ s.sessions then
    if existing_live then (Except.ok (), s)
    else create_fresh (_cleanup_session s d true) d driver_ok
  else create_fresh s d driver_ok

/-- `SessionManager.cleanup_stale_sessions`: probe every session, then purge
the ones whose probe failed; returns the purged count. -/
def cleanup_stale_sessions (s : SessionManager) (stale : Device → Bool) :
    Nat × SessionManager :=
  let staleList := s.sessions.filter stale
  (staleList.length, staleList.foldl (fun st d => _cleanup_session st d true) s)

/-- One externally observable pool call, with its driver oracles. -/
inductive PoolEvent where
  | create (d : Device) (existing_live driver_ok : Bool)
  | close (d : Device) (quit_ok : Bool)
  | cleanup (stale : Device → Bool)

def poolStep (s : SessionManager) (e : PoolEvent) : SessionManager :=
  match e with
  | .create d el dok => (create_session s d el dok).2
  | .close d q => close_session s d q
  | .cleanup stale => (cleanup_stale_sessions s stale).2

/-- The pool state after a sequence of calls on a freshly initialized
manager. -/
def runPool (lo hi m : Nat) (evs : List PoolEvent) : SessionManager :=
  evs.foldl poolStep (SessionManager.init lo hi m)

/-- The allocated ports (the values of `_used_ports`). -/
def portsOf (s : SessionManager) : List Nat := s.used_ports.map Prod.snd

/-- The well-formedness invariant of the pool relative to the configured
port range `[lo, hi]`. -/
structure PoolInv (lo hi : Nat) (s : SessionManager) : Prop where
  keys_nodup : (s.used_ports.map Prod.fst).Nodup
  ports_nodup : (portsOf s).Nodup
  sessions_eq : s.sessions = s.used_ports.map Prod.fst
  used_range : ∀ q ∈ s.used_ports, q.2 ∈ Finset.Icc lo hi ∧ q.2 ∉ s.port_pool
  free_sub : s.port_pool ⊆ Finset.Icc lo hi
  cover : ∀ p ∈ Finset.Icc lo hi, p ∈ s.port_pool ∨ p ∈ portsOf s
  card_le : s.sessions.length ≤ s.max_sessions

theorem lookupPort_mem {l : List (Device × Nat)} {d : Device} {p : Nat}
    (h : lookupPort l d = some p) : (d, p) ∈ l := by
  induction l with
  | nil => simp [lookupPort] at h
  | cons q rest ih =>
    obtain ⟨k, v⟩ := q
    by_cases hk : k = d
    · subst hk
      simp [lookupPort] at h
      simp [h]
    · simp [lookupPort, hk] at h
      exact List.mem_cons_of_mem _ (ih h)

theorem lookupPort_eq_none {l : List (Device × Nat)} {d : Device}
    (h : d ∉ l.map Prod.fst) : lookupPort l d = none := by
  induction l with
  | nil => rfl
  | cons q rest ih =>
    obtain ⟨k, v⟩ := q
    simp only [List.map_cons, List.mem_cons, not_or] at h
    have hk : ¬ k = d := fun hq => h.1 hq.symm
    simp [lookupPort, hk, ih h.2]

theorem lookupPort_cons_self {l : List (Device × Nat)} {d : Device} {p : Nat} :
    lookupPort ((d, p) :: l) d = some p := by
  simp [lookupPort]

theorem lookupPort_of_keys_nodup {l : List (Device × Nat)} {d : Device}
    {p : Nat} (hn : (l.map Prod.fst).Nodup) (h : (d, p) ∈ l) :
    lookupPort l d = some p := by
  induction l with
  | nil => simp at h
  | cons q rest ih =>
    obtain ⟨k, v⟩ := q
    simp only [List.map_cons, List.nodup_cons] at hn
    rcases List.mem_cons.mp h with h | h
    · injection h with h1 h2
      subst h1; subst h2
      simp [lookupPort]
    · have hk : k ≠ d := by
        rintro rfl
        exact hn.1 (List.mem_map.mpr ⟨(k, p), h, rfl⟩)
      simp [lookupPort, hk, ih hn.2 h]

theorem removeKey_cons (k : Device) (v : Nat) (l : List (Device × Nat))
    (d : Device) :
    removeKey ((k, v) :: l) d
      = if k = d then removeKey l d else (k, v) :: removeKey l d := by
  by_cases hk : k = d <;> simp [removeKey, List.filter_cons, hk]

theorem mem_removeKey {l : List (Device × Nat)} {d : Device}
    {q : Device × Nat} : q ∈ removeKey l d ↔ q ∈ l ∧ q.1 ≠ d := by
  simp [removeKey, List.mem_filter]

theorem map_fst_removeKey (l : List (Device × Nat)) (d : Device) :
    (removeKey l d).map Prod.fst
      = (l.map Prod.fst).filter (fun x => decide (x ≠ d)) := by
  induction l with
  | nil => rfl
  | cons q rest ih =>
    by_cases hq : q.1 = d
    · simp [removeKey, List.filter_cons, hq] at ih ⊢
      exact ih
    · simp [removeKey, List.filter_cons, hq] at ih ⊢
      exact ih

theorem map_snd_removeKey_sublist (l : List (Device × Nat)) (d : Device) :
    List.Sublist ((removeKey l d).map Prod.snd) (l.map Prod.snd) :=
  (List.filter_sublist l).map Prod.snd

theorem removeKey_of_not_mem {l : List (Device × Nat)} {d : Device}
    (h : d ∉ l.map Prod.fst) : removeKey l d = l := by
  induction l with
  | nil => rfl
  | cons q rest ih =>
    obtain ⟨k, v⟩ := q
    simp only [List.map_cons, List.mem_cons, not_or] at h
    have hk : ¬ k = d := fun hq => h.1 hq.symm
    rw [removeKey_cons, if_neg hk, ih h.2]

theorem eq_of_snd_eq_of_nodup_values {l : List (Device × Nat)}
    (hn : (l.map Prod.snd).Nodup) {q r : Device × Nat}
    (hq : q ∈ l) (hr : r ∈ l) (h2 : q.2 = r.2) : q = r := by
  induction l with
  | nil => simp at hq
  | cons x rest ih =>
    simp only [List.map_cons, List.nodup_cons] at hn
    rcases List.mem_cons.mp hq with rfl | hq' <;>
      rcases List.mem_cons.mp hr with rfl | hr'
    · rfl
    · exact absurd (List.mem_map.mpr ⟨r, hr', h2.symm⟩) hn.1
    · exact absurd (List.mem_map.mpr ⟨q, hq', h2⟩) hn.1
    · exact ih hn.2 hq' hr'

theorem lookupPort_ne_none {l : List (Device × Nat)} {d : Device}
    (h : d ∈ l.map Prod.fst) : lookupPort l d ≠ none := by
  induction l with
  | nil => simp at h
  | cons q rest ih =>
    obtain ⟨k, v⟩ := q
    by_cases hk : k = d
    · simp [lookupPort, hk]
    · simp only [List.map_cons, List.mem_cons] at h
      rcases h with h | h
      · exact absurd h.symm hk
      · simp only [lookupPort, hk, if_false]
        exact ih h

theorem release_port_of_none {s : SessionManager} {d : Device}
    (hl : lookupPort s.used_ports d = none) : _release_port s d = s := by
  unfold _release_port
  rw [hl]

theorem release_port_of_some {s : SessionManager} {d : Device} {p : Nat}
    (hl : lookupPort s.used_ports d = some p) :
    _release_port s d = { s with used_ports := removeKey s.used_ports d,
                                 port_pool := insert p s.port_pool } := by
  unfold _release_port
  rw [hl]

theorem poolInv_cleanup_session {lo hi : Nat} {s : SessionManager}
    (h : PoolInv lo hi s) (d : Device) (qk : Bool) :
    PoolInv lo hi (_cleanup_session s d qk) := by
  obtain ⟨hkeys, hports, hsess, hrange, hfree, hcover, hcard⟩ := h
  unfold _cleanup_session
  set t : SessionManager :=
    { s with sessions := s.sessions.filter (fun x => decide (x ≠ d)) } with ht
  have htu : t.used_ports = s.used_ports := rfl
  cases hl : lookupPort t.used_ports d with
  | none =>
    rw [release_port_of_none hl]
    rw [htu] at hl
    have hd : d ∉ s.used_ports.map Prod.fst := fun hm => lookupPort_ne_none hm hl
    refine ⟨hkeys, hports, ?_, hrange, hfree, hcover, ?_⟩
    · show s.sessions.filter (fun x => decide (x ≠ d)) = _
      rw [hsess]
      refine List.filter_eq_self.mpr fun x hx => ?_
      simp only [decide_eq_true_eq]
      rintro rfl
      exact hd hx
    · exact le_trans (List.length_filter_le _ _) hcard
  | some p =>
    rw [release_port_of_some hl]
    rw [htu] at hl
    have hdp : (d, p) ∈ s.used_ports := lookupPort_mem hl
    have hpIcc : p ∈ Finset.Icc lo hi := (hrange _ hdp).1
    refine ⟨?_, ?_, ?_, ?_, ?_, ?_, ?_⟩
    · show (List.map Prod.fst (removeKey s.used_ports d)).Nodup
      rw [map_fst_removeKey]
      exact hkeys.filter _
    · show ((removeKey s.used_ports d).map Prod.snd).Nodup
      exact (map_snd_removeKey_sublist _ _).nodup hports
    · show s.sessions.filter (fun x => decide (x ≠ d)) = _
      rw [hsess, map_fst_removeKey]
    · intro q hq
      obtain ⟨hq1, hq2⟩ := mem_removeKey.mp hq
      refine ⟨(hrange _ hq1).1, ?_⟩
      show q.2 ∉ insert p s.port_pool
      simp only [Finset.mem_insert, not_or]
      refine ⟨fun hqp => ?_, (hrange _ hq1).2⟩
      exact hq2 (congrArg Prod.fst
        (eq_of_snd_eq_of_nodup_values hports hq1 hdp hqp))
    · show insert p s.port_pool ⊆ Finset.Icc lo hi
      exact Finset.insert_subset hpIcc hfree
    · intro x hx
      rcases hcover x hx with hx1 | hx1
      · exact Or.inl (Finset.mem_insert_of_mem hx1)
      · obtain ⟨q, hq, rfl⟩ := List.mem_map.mp hx1
        by_cases hqd : q.1 = d
        · have hq' : (d, q.2) ∈ s.used_ports := by
            rw [← hqd]
            simpa using hq
          have hlq := lookupPort_of_keys_nodup hkeys hq'
          rw [hl] at hlq
          injection hlq with hpq
          exact Or.inl (hpq ▸ Finset.mem_insert_self _ _)
        · exact Or.inr (List.mem_map.mpr ⟨q, mem_removeKey.mpr ⟨hq, hqd⟩, rfl⟩)
    · exact le_trans (List.length_filter_le _ _) hcard

theorem cleanup_session_sessions (s : SessionManager) (d : Device) (qk : Bool) :
    (_cleanup_session s d qk).sessions
      = s.sessions.filter (fun x => decide (x ≠ d)) := by
  unfold _cleanup_session
  set t : SessionManager :=
    { s with sessions := s.sessions.filter (fun x => decide (x ≠ d)) } with ht
  cases hl : lookupPort t.used_ports d with
  | none => rw [release_port_of_none hl]
  | some p => rw [release_port_of_some hl]

theorem allocate_port_of_not_mem {s : SessionManager} {d : Device}
    (hd : d ∉ s.used_ports.map Prod.fst) (hne : s.port_pool.Nonempty) :
    _allocate_port s d
      = some (s.port_pool.min' hne,
          { s with port_pool := s.port_pool.erase (s.port_pool.min' hne),
                   used_ports := (d, s.port_pool.min' hne) :: s.used_ports }) := by
  unfold _allocate_port
  rw [lookupPort_eq_none hd, dif_pos hne]

theorem allocate_port_of_empty {s : SessionManager} {d : Device}
    (hd : d ∉ s.used_ports.map Prod.fst) (hne : ¬ s.port_pool.Nonempty) :
    _allocate_port s d = none := by
  unfold _allocate_port
  rw [lookupPort_eq_none hd, dif_neg hne]

theorem create_fresh_at_cap {s : SessionManager} {d : Device} {dok : Bool}
    (h : s.max_sessions ≤ s.sessions.length) :
    create_fresh s d dok = (Except.error "Max sessions reached", s) := by
  unfold create_fresh
  rw [if_pos h]

theorem create_fresh_no_port {s : SessionManager} {d : Device} {dok : Bool}
    (hd : d ∉ s.used_ports.map Prod.fst)
    (hcap : ¬ s.max_sessions ≤ s.sessions.length)
    (hne : ¬ s.port_pool.Nonempty) :
    create_fresh s d dok = (Except.error "No available systemPort in pool", s) := by
  unfold create_fresh
  rw [if_neg hcap, allocate_port_of_empty hd hne]

theorem create_fresh_ok {s : SessionManager} {d : Device}
    (hd : d ∉ s.used_ports.map Prod.fst)
    (hcap : ¬ s.max_sessions ≤ s.sessions.length)
    (hne : s.port_pool.Nonempty) :
    create_fresh s d true
      = (Except.ok (),
         { s with port_pool := s.port_pool.erase (s.port_pool.min' hne),
                  used_ports := (d, s.port_pool.min' hne) :: s.used_ports,
                  sessions := d :: s.sessions }) := by
  unfold create_fresh
  rw [if_neg hcap, allocate_port_of_not_mem hd hne]
  rfl

/-- **C6 component**: when `webdriver.Remote` raises, `create_session`'s
failure path releases the freshly allocated port, restoring the pool state
exactly. -/
theorem create_fresh_driver_fail {s : SessionManager} {d : Device}
    (hd : d ∉ s.used_ports.map Prod.fst) :
    (create_fresh s d false).2 = s := by
  unfold create_fresh
  by_cases hcap : s.sessions.length ≥ s.max_sessions
  · rw [if_pos hcap]
  · rw [if_neg hcap]
    by_cases hne : s.port_pool.Nonempty
    · rw [allocate_port_of_not_mem hd hne]
      show (_release_port
        { s with port_pool := s.port_pool.erase (s.port_pool.min' hne),
                 used_ports := (d, s.port_pool.min' hne) :: s.used_ports } d) = s
      rw [release_port_of_some lookupPort_cons_self]
      show ({ s with
        port_pool := insert (s.port_pool.min' hne)
          (s.port_pool.erase (s.port_pool.min' hne)),
        used_ports := removeKey ((d, s.port_pool.min' hne) :: s.used_ports) d }
          : SessionManager) = s
      rw [removeKey_cons, if_pos rfl, removeKey_of_not_mem hd,
        Finset.insert_erase (Finset.min'_mem _ hne)]
    · rw [allocate_port_of_empty hd hne]

theorem poolInv_create_fresh {lo hi : Nat} {s : SessionManager}
    (h : PoolInv lo hi s) {d : Device} (hd : d ∉ s.sessions) (dok : Bool) :
    PoolInv lo hi (create_fresh s d dok).2 := by
  obtain ⟨hkeys, hports, hsess, hrange, hfree, hcover, hcard⟩ := h
  have hdk : d ∉ s.used_ports.map Prod.fst := by
    rw [← hsess]
    exact hd
  by_cases hcap : s.max_sessions ≤ s.sessions.length
  · rw [create_fresh_at_cap hcap]
    exact ⟨hkeys, hports, hsess, hrange, hfree, hcover, hcard⟩
  · cases dok with
  | false =>
    rw [create_fresh_driver_fail hdk]
    exact ⟨hkeys, hports, hsess, hrange, hfree, hcover, hcard⟩
  | true =>
    by_cases hne : s.port_pool.Nonempty
    · rw [create_fresh_ok hdk hcap hne]
      have hpmem : s.port_pool.min' hne ∈ s.port_pool := Finset.min'_mem _ _
      have hpIcc := hfree hpmem
      have hpnotin : s.port_pool.min' hne ∉ portsOf s := by
        intro hmem
        obtain ⟨q, hq, hq2⟩ := List.mem_map.mp hmem
        exact (hrange _ hq).2 (hq2 ▸ hpmem)
      refine ⟨?_, ?_, ?_, ?_, ?_, ?_, ?_⟩
      · show (List.map Prod.fst ((d, s.port_pool.min' hne) :: s.used_ports)).Nodup
        simp only [List.map_cons, List.nodup_cons]
        exact ⟨hdk, hkeys⟩
      · show (((d, s.port_pool.min' hne) :: s.used_ports).map Prod.snd).Nodup
        simp only [List.map_cons, List.nodup_cons]
        exact ⟨hpnotin, hports⟩
      · show d :: s.sessions = _
        simp only [List.map_cons]
        rw [hsess]
      · rintro q hq
        rcases List.mem_cons.mp hq with rfl | hq'
        · exact ⟨hpIcc, Finset.not_mem_erase _ _⟩
        · exact ⟨(hrange _ hq').1,
            fun hmem => (hrange _ hq').2 (Finset.erase_subset _ _ hmem)⟩
      · exact subset_trans (Finset.erase_subset _ _) hfree
      · intro x hx
        rcases hcover x hx with hx1 | hx1
        · by_cases hxp : x = s.port_pool.min' hne
          · exact Or.inr (List.mem_map.mpr ⟨(d, s.port_pool.min' hne),
              List.mem_cons_self _ _, hxp.symm⟩)
          · exact Or.inl (Finset.mem_erase.mpr ⟨hxp, hx1⟩)
        · right
          obtain ⟨q, hq, rfl⟩ := List.mem_map.mp hx1
          exact List.mem_map.mpr ⟨q, List.mem_cons_of_mem _ hq, rfl⟩
      · show (d :: s.sessions).length ≤ s.max_sessions
        have hlt : s.sessions.length < s.max_sessions := Nat.lt_of_not_le hcap
        simpa using Nat.succ_le_of_lt hlt
    · rw [create_fresh_no_port hdk hcap hne]
      exact ⟨hkeys, hports, hsess, hrange, hfree, hcover, hcard⟩

theorem poolInv_create_session {lo hi : Nat} {s : SessionManager}
    (h : PoolInv lo hi s) (d : Device) (el dok : Bool) :
    PoolInv lo hi (create_session s d el dok).2 := by
  unfold create_session
  by_cases hd : d ∈ s.sessions
  · rw [if_pos hd]
    cases el with
    | true =>
      rw [if_pos rfl]
      exact h
    | false =>
      rw [if_neg Bool.false_ne_true]
      have hinv := poolInv_cleanup_session h d true
      have hnot : d ∉ (_cleanup_session s d true).sessions := by
        rw [cleanup_session_sessions]
        simp [List.mem_filter]
      exact poolInv_create_fresh hinv hnot dok
  · rw [if_neg hd]
    exact poolInv_create_fresh h hd dok

theorem poolInv_foldl_cleanup {lo hi : Nat} (l : List Device) :
    ∀ s : SessionManager, PoolInv lo hi s →
      PoolInv lo hi (l.foldl (fun st d => _cleanup_session st d true) s) := by
  induction l with
  | nil => exact fun s h => h
  | cons d rest ih =>
    intro s h
    exact ih _ (poolInv_cleanup_session h d true)

theorem poolInv_cleanup_stale {lo hi : Nat} {s : SessionManager}
    (h : PoolInv lo hi s) (stale : Device → Bool) :
    PoolInv lo hi (cleanup_stale_sessions s stale).2 :=
  poolInv_foldl_cleanup _ s h

theorem poolInv_init (lo hi m : Nat) :
    PoolInv lo hi (SessionManager.init lo hi m) := by
  refine ⟨?_, ?_, ?_, ?_, ?_, ?_, ?_⟩ <;>
    simp [SessionManager.init, portsOf, Finset.Subset.refl]

theorem poolInv_step {lo hi : Nat} {s : SessionManager}
    (h : PoolInv lo hi s) (e : PoolEvent) : PoolInv lo hi (poolStep s e) := by
  cases e with
  | create d el dok => exact poolInv_create_session h d el dok
  | close d q => exact poolInv_cleanup_session h d q
  | cleanup stale => exact poolInv_cleanup_stale h stale

theorem poolInv_runPool (lo hi m : Nat) (evs : List PoolEvent) :
    PoolInv lo hi (runPool lo hi m evs) := by
  suffices h : ∀ (l : List PoolEvent) (s : SessionManager), PoolInv lo hi s →
      PoolInv lo hi (l.foldl poolStep s) by
    exact h evs _ (poolInv_init lo hi m)
  intro l
  induction l with
  | nil => exact fun s h => h
  | cons e rest ih => exact fun s h => ih _ (poolInv_step h e)

theorem allocate_port_fields {s s1 : SessionManager} {d : Device} {p : Nat}
    (h : _allocate_port s d = some (p, s1)) :
    s1.max_sessions = s.max_sessions ∧ s1.sessions = s.sessions := by
  unfold _allocate_port at h
  cases hl : lookupPort s.used_ports d with
  | some q =>
    rw [hl] at h
    injection h with h
    injection h with h1 h2
    rw [← h2]
    exact ⟨rfl, rfl⟩
  | none =>
    rw [hl] at h
    by_cases hne : s.port_pool.Nonempty
    · rw [dif_pos hne] at h
      injection h with h
      injection h with h1 h2
      rw [← h2]
      exact ⟨rfl, rfl⟩
    · rw [dif_neg hne] at h
      exact absurd h (by simp)

theorem release_port_max (s : SessionManager) (d : Device) :
    (_release_port s d).max_sessions = s.max_sessions := by
  unfold _release_port
  split <;> rfl

theorem cleanup_session_max (s : SessionManager) (d : Device) (qk : Bool) :
    (_cleanup_session s d qk).max_sessions = s.max_sessions := by
  unfold _cleanup_session
  rw [release_port_max]

theorem create_fresh_max (s : SessionManager) (d : Device) (dok : Bool) :
    (create_fresh s d dok).2.max_sessions = s.max_sessions := by
  unfold create_fresh
  split
  · rfl
  · cases hh : _allocate_port s d with
    | none => rfl
    | some pr =>
      obtain ⟨p, s1⟩ := pr
      have hf := allocate_port_fields hh
      cases dok with
      | false =>
        show (_release_port s1 d).max_sessions = s.max_sessions
        rw [release_port_max, hf.1]
      | true =>
        show s1.max_sessions = s.max_sessions
        exact hf.1

theorem create_session_max (s : SessionManager) (d : Device) (el dok : Bool) :
    (create_session s d el dok).2.max_sessions = s.max_sessions := by
  unfold create_session
  by_cases hd : d ∈ s.sessions
  · rw [if_pos hd]
    cases el with
    | true => rw [if_pos rfl]
    | false =>
      rw [if_neg Bool.false_ne_true, create_fresh_max, cleanup_session_max]
  · rw [if_neg hd, create_fresh_max]

theorem poolStep_max (s : SessionManager) (e : PoolEvent) :
    (poolStep s e).max_sessions = s.max_sessions := by
  cases e with
  | create d el dok => exact create_session_max s d el dok
  | close d q => exact cleanup_session_max s d q
  | cleanup stale =>
    show ((s.sessions.filter stale).foldl
      (fun st d => _cleanup_session st d true) s).max_sessions = s.max_sessions
    generalize s.sessions.filter stale = l
    induction l generalizing s with
    | nil => rfl
    | cons d rest ih => rw [List.foldl_cons, ih, cleanup_session_max]

theorem runPool_max (lo hi m : Nat) (evs : List PoolEvent) :
    (runPool lo hi m evs).max_sessions = m := by
  suffices h : ∀ (l : List PoolEvent) (s : SessionManager),
      (l.foldl poolStep s).max_sessions = s.max_sessions by
    exact h evs (SessionManager.init lo hi m)
  intro l
  induction l with
  | nil => exact fun _ => rfl
  | cons e rest ih =>
    intro s
    rw [List.foldl_cons, ih, poolStep_max]

theorem create_session_at_cap {s : SessionManager} {d : Device} (el dok : Bool)
    (hd : d ∉ s.sessions) (hcap : s.max_sessions ≤ s.sessions.length) :
    create_session s d el dok = (Except.error "Max sessions reached", s) := by
  unfold create_session
  rw [if_neg hd]
  exact create_fresh_at_cap hcap

/-- **C2.** In every state reachable by any sequence of `create_session`,
`close_session` and `cleanup_stale_sessions` calls: the pool holds at most
`max_sessions` sessions; the device→port map is injective; within the
configured range `[lo, hi]` the allocated ports are exactly the complement
of the free-port pool; and a `create_session` call for a new device while
the pool is at `max_sessions` fails with the pool-exhausted error without
allocating (the state is returned unchanged). -/
theorem session_pool_reachable_invariants (lo hi m : Nat)
    (evs : List PoolEvent) :
    ((runPool lo hi m evs).sessions.length ≤ m)
    ∧ (∀ d1 d2 p, lookupPort (runPool lo hi m evs).used_ports d1 = some p →
        lookupPort (runPool lo hi m evs).used_ports d2 = some p → d1 = d2)
    ∧ (∀ p, p ∈ Finset.Icc lo hi →
        (p ∈ portsOf (runPool lo hi m evs) ↔
          p ∉ (runPool lo hi m evs).port_pool))
    ∧ (∀ (d : Device) (el dok : Bool), d ∉ (runPool lo hi m evs).sessions →
        (runPool lo hi m evs).sessions.length = m →
        create_session (runPool lo hi m evs) d el dok
          = (Except.error "Max sessions reached", runPool lo hi m evs)) := by
  have hmax : (runPool lo hi m evs).max_sessions = m := runPool_max lo hi m evs
  obtain ⟨hkeys, hports, hsess, hrange, hfree, hcover, hcard⟩ :=
    poolInv_runPool lo hi m evs
  refine ⟨?_, ?_, ?_, ?_⟩
  · exact le_trans hcard (le_of_eq hmax)
  · intro d1 d2 p h1 h2
    exact congrArg Prod.fst
      (eq_of_snd_eq_of_nodup_values hports (lookupPort_mem h1)
        (lookupPort_mem h2) rfl)
  · intro p hp
    constructor
    · intro hmem
      obtain ⟨q, hq, rfl⟩ := List.mem_map.mp hmem
      exact (hrange _ hq).2
    · intro hnot
      rcases hcover p hp with h | h
      · exact absurd h hnot
      · exact h
  · intro d el dok hd hlen
    exact create_session_at_cap el dok hd (le_of_eq (hmax.trans hlen.symm))

/-- Witness for C2: with `max_sessions = 1` and one session for device
`a`, creating a session for the new device `b` fails with the
pool-exhausted error and leaves the state unchanged. -/
theorem session_pool_reachable_invariants_witness :
    create_session (runPool 1 2 1 [PoolEvent.create "a" true true]) "b"
        true true
      = (Except.error "Max sessions reached",
         runPool 1 2 1 [PoolEvent.create "a" true true]) :=
  (session_pool_reachable_invariants 1 2 1
    [PoolEvent.create "a" true true]).2.2.2 "b" true true (by decide)
    (by decide)

/-- The pool-exhaustion scenario of the spec: `MAX_SESSIONS = 2`, default
port range 8200..8300; two sessions created, a third requested (it fails),
then the two sessions closed — one of them with a failing `driver.quit()`. -/
def poolExhaustEvents : List PoolEvent :=
  [PoolEvent.create "d1" true true, PoolEvent.create "d2" true true,
   PoolEvent.create "d3" true true, PoolEvent.close "d1" false,
   PoolEvent.close "d2" true]

set_option maxRecDepth 40000 in
/-- **C6 (counterexample).** In the pool-exhaustion scenario the third
`create_session` does fail pool-exhausted, but after the two sessions are
closed the number of available ports is `8300 - 8200 + 1 = 101` — the full
pool — and not `P_HI - P_LO - 1 = 99` as the claim states, because
`__init__` builds `set(range(start, end + 1))`. -/
theorem pool_exhaust_available_ports_counterexample :
    (create_session (runPool 8200 8300 2
        [PoolEvent.create "d1" true true, PoolEvent.create "d2" true true])
        "d3" true true).1 = Except.error "Max sessions reached"
    ∧ (runPool 8200 8300 2 poolExhaustEvents).port_pool.card = 101
    ∧ ¬ (runPool 8200 8300 2 poolExhaustEvents).port_pool.card
          = 8300 - 8200 - 1 := by
  refine ⟨rfl, by decide, by decide⟩

set_option maxRecDepth 40000 in
/-- **C6 (amended).** `close_session` returns the device's port to the free
pool unconditionally — the result does not depend on whether the underlying
`driver.quit()` fails — and `create_session` releases the freshly allocated
port when driver creation fails, restoring the state exactly; consequently
no port is leaked, and after the two sessions of the pool-exhaustion
scenario are closed the number of available ports returns to
`P_HI - P_LO + 1` (the full pool, 101 for the default 8200..8300 range). -/
theorem port_release_no_leak :
    (∀ (s : SessionManager) (d : Device) (qk : Bool),
        close_session s d qk = close_session s d true)
    ∧ (∀ (s : SessionManager) (d : Device) (p : Nat) (qk : Bool),
        lookupPort s.used_ports d = some p →
        p ∈ (close_session s d qk).port_pool)
    ∧ (∀ (s : SessionManager) (d : Device) (el : Bool),
        d ∉ s.sessions → d ∉ s.used_ports.map Prod.fst →
        (create_session s d el false).2 = s)
    ∧ (runPool 8200 8300 2 poolExhaustEvents).port_pool.card
        = 8300 - 8200 + 1 := by
  refine ⟨fun s d qk => rfl, ?_, ?_, by decide⟩
  · intro s d p qk hl
    unfold close_session _cleanup_session
    set t : SessionManager :=
      { s with sessions := s.sessions.filter (fun x => decide (x ≠ d)) }
      with ht
    have hl' : lookupPort t.used_ports d = some p := hl
    rw [release_port_of_some hl']
    exact Finset.mem_insert_self _ _
  · intro s d el hd hdk
    unfold create_session
    rw [if_neg hd]
    exact create_fresh_driver_fail hdk

/-- Witness for the amended C6: closing device `a`'s session with a failing
`driver.quit()` still returns port 1 to the pool, and a failed driver
creation on a fresh pool leaves the state unchanged. -/
theorem port_release_no_leak_witness :
    (1 ∈ (close_session (runPool 1 2 1 [PoolEvent.create "a" true true]) "a"
        false).port_pool)
    ∧ (create_session (runPool 1 2 1 []) "b" true false).2
        = runPool 1 2 1 [] := by
  constructor
  · exact port_release_no_leak.2.1 _ "a" 1 false (by decide)
  · exact port_release_no_leak.2.2.1 _ "b" true (by decide) (by decide)

/-! ## Selector engine (`appium_core/selectors.py`)

UI elements are opaque handles (`Nat`).  A `WebDriverWait` run is modelled
by its poll trace: the sequence of outcomes the locator produces inside the
wait window, restricted to the element-absence events of the claim — an
element found, a `NoSuchElementException`, a
`StaleElementReferenceException` (the latter two are the members of
`IGNORED_EXCEPTIONS`).  The per-strategy finders `by_id`, `by_text`, … are
abstracted into one oracle `locate : method → value → timeout → Option`
since the claim constrains only the order and the budgets of the calls. -/

inductive PollStep where
  | found (e : Nat)
  | noSuchElement
  | staleElement
deriving DecidableEq, Repr

inductive SelectorExc where
  | timeoutExc
  | noSuchExc
  | staleExc
deriving DecidableEq, Repr

/-- `WebDriverWait(driver, timeout, ignored_exceptions=IGNORED_EXCEPTIONS)
.until(...)`: polls until a result; `NoSuchElementException` and
`StaleElementReferenceException` are in the ignored set and only make the
wait poll again; an exhausted window raises `TimeoutException`. -/
def wait_until : List PollStep → Except SelectorExc Nat
  | [] => Except.error SelectorExc.timeoutExc
  | PollStep.found e :: _ => Except.ok e
  | PollStep.noSuchElement :: rest => wait_until rest
  | PollStep.staleElement :: rest => wait_until rest

/-- The body shared by `by_id` / `by_accessibility_id` / `by_text` /
`by_text_contains` / `by_desc_contains` / `by_class_name` / `by_xpath`:
`try: return wait.until(...)` with `except TimeoutException: return None`.
Any other exception would pass through. -/
def locate_with_ignores (polls : List PollStep) :
    Except SelectorExc (Option Nat) :=
  match wait_until polls with
  | Except.ok e => Except.ok (some e)
  | Except.error SelectorExc.timeoutExc => Except.ok none
  | Except.error exc => Except.error exc

/-- The first element a poll trace produces. -/
def firstFound (polls : List PollStep) : Option Nat :=
  polls.findSome? fun s =>
    match s with
    | PollStep.found e => some e
    | _ => none

/-- The method names `_find_by_method` dispatches on. -/
def SELECTOR_METHODS : List String :=
  ["id", "accessibility_id", "text", "text_contains", "desc_contains",
   "class_name", "xpath"]

/-- `AppiumSelectors._find_by_method`: dispatch by method name; an unknown
method is logged and yields `None`. -/
def find_by_method (locate : String → String → ℚ → Option Nat)
    (method value : String) (timeout : ℚ) : Option Nat :=
  if method ∈ SELECTOR_METHODS then locate method value timeout else none

/-- The loop of `AppiumSelectors.find_with_fallback`, carrying the
`enumerate` index: the first strategy (index 0) receives the full timeout,
every later one `min(timeout, 3)`. -/
def find_with_fallback_from (locate : String → String → ℚ → Option Nat)
    (strategies : List (String × String)) (timeout : ℚ) (i : Nat) :
    Option Nat :=
  match strategies with
  | [] => none
  | (m, v) :: rest =>
    match find_by_method locate m v (if i = 0 then timeout else min timeout 3)
      with
    | some e => some e
    | none => find_with_fallback_from locate rest timeout (i + 1)

/-- `AppiumSelectors.find_with_fallback`. -/
def find_with_fallback (locate : String → String → ℚ → Option Nat)
    (strategies : List (String × String)) (timeout : ℚ) : Option Nat :=
  find_with_fallback_from locate strategies timeout 0

theorem wait_until_never_raises_absence (polls : List PollStep) :
    locate_with_ignores polls = Except.ok (firstFound polls) := by
  induction polls with
  | nil => rfl
  | cons s rest ih =>
    cases s with
    | found e => rfl
    | noSuchElement =>
      show locate_with_ignores rest = _
      rw [ih]
      rfl
    | staleElement =>
      show locate_with_ignores rest = _
      rw [ih]
      rfl

theorem find_with_fallback_from_spec
    (locate : String → String → ℚ → Option Nat) (timeout : ℚ) :
    ∀ (l : List (String × String)) (i : Nat),
    ((∀ e : Nat, find_with_fallback_from locate l timeout i = some e ↔
        ∃ j, ∃ hj : j < l.length,
          find_by_method locate (l.get ⟨j, hj⟩).1 (l.get ⟨j, hj⟩).2
            (if i + j = 0 then timeout else min timeout 3) = some e
          ∧ ∀ j', (hj' : j' < l.length) → j' < j →
              find_by_method locate (l.get ⟨j', hj'⟩).1 (l.get ⟨j', hj'⟩).2
                (if i + j' = 0 then timeout else min timeout 3) = none)
      ∧ (find_with_fallback_from locate l timeout i = none ↔
          ∀ j, (hj : j < l.length) →
            find_by_method locate (l.get ⟨j, hj⟩).1 (l.get ⟨j, hj⟩).2
              (if i + j = 0 then timeout else min timeout 3) = none)) := by
  intro l
  induction l with
  | nil =>
    intro i
    constructor
    · intro e
      simp [find_with_fallback_from]
    · simp [find_with_fallback_from]
  | cons mv rest ih =>
    intro i
    obtain ⟨m, v⟩ := mv
    cases hfb : find_by_method locate m v
        (if i = 0 then timeout else min timeout 3) with
    | some e0 =>
      constructor
      · intro e
        constructor
        · intro he
          refine ⟨0, Nat.succ_pos _, ?_, ?_⟩
          · simp only [List.get]
            rw [Nat.add_zero, hfb]
            simp only [find_with_fallback_from, hfb] at he
            exact he
          · intro j' hj' hlt
            exact absurd hlt (Nat.not_lt_zero _)
        · rintro ⟨j, hj, hsome, hearlier⟩
          cases j with
          | zero =>
            simp only [List.get] at hsome
            rw [Nat.add_zero, hfb] at hsome
            simp only [find_with_fallback_from, hfb]
            exact hsome
          | succ j0 =>
            have h0 := hearlier 0 (Nat.succ_pos _) (Nat.succ_pos _)
            simp only [List.get] at h0
            rw [Nat.add_zero, hfb] at h0
            exact absurd h0 (by simp)
      · constructor
        · intro hnone
          simp only [find_with_fallback_from, hfb] at hnone
          exact absurd hnone (by simp)
        · intro hall
          have h0 := hall 0 (Nat.succ_pos _)
          simp only [List.get] at h0
          rw [Nat.add_zero, hfb] at h0
          exact absurd h0 (by simp)
    | none =>
      have hrec : find_with_fallback_from locate ((m, v) :: rest) timeout i
          = find_with_fallback_from locate rest timeout (i + 1) := by
        simp only [find_with_fallback_from, hfb]
      constructor
      · intro e
        rw [hrec, ((ih (i + 1)).1 e)]
        constructor
        · rintro ⟨j, hj, hsome, hearlier⟩
          refine ⟨j + 1, Nat.succ_lt_succ hj, ?_, ?_⟩
          · show find_by_method locate (rest.get ⟨j, hj⟩).1
              (rest.get ⟨j, hj⟩).2 _ = some e
            have : i + 1 + j = i + (j + 1) := by omega
            rw [← this]
            exact hsome
          · intro j' hj' hlt
            cases j' with
            | zero =>
              simp only [List.get]
              rw [Nat.add_zero]
              exact hfb
            | succ j0 =>
              have hj0 : j0 < rest.length := Nat.lt_of_succ_lt_succ hj'
              have := hearlier j0 hj0 (Nat.lt_of_succ_lt_succ hlt)
              show find_by_method locate (rest.get ⟨j0, hj0⟩).1
                (rest.get ⟨j0, hj0⟩).2 _ = none
              have harith : i + 1 + j0 = i + (j0 + 1) := by omega
              rw [harith] at this
              exact this
        · rintro ⟨j, hj, hsome, hearlier⟩
          cases j with
          | zero =>
            simp only [List.get] at hsome
            rw [Nat.add_zero, hfb] at hsome
            exact absurd hsome (by simp)
          | succ j0 =>
            have hj0 : j0 < rest.length := Nat.lt_of_succ_lt_succ hj
            refine ⟨j0, hj0, ?_, ?_⟩
            · have harith : i + 1 + j0 = i + (j0 + 1) := by omega
              rw [harith]
              exact hsome
            · intro j' hj' hlt
              have := hearlier (j' + 1) (Nat.succ_lt_succ hj')
                (Nat.succ_lt_succ hlt)
              have harith : i + 1 + j' = i + (j' + 1) := by omega
              rw [harith]
              exact this
      · rw [hrec, (ih (i + 1)).2]
        constructor
        · intro hall j hj
          cases j with
          | zero =>
            simp only [List.get]
            rw [Nat.add_zero]
            exact hfb
          | succ j0 =>
            have hj0 : j0 < rest.length := Nat.lt_of_succ_lt_succ hj
            have := hall j0 hj0
            have harith : i + 1 + j0 = i + (j0 + 1) := by omega
            rw [harith] at this
            exact this
        · intro hall j hj
          have := hall (j + 1) (Nat.succ_lt_succ hj)
          have harith : i + 1 + j = i + (j + 1) := by omega
          rw [harith]
          exact this

/-- **C7.** `find_with_fallback` tries the strategies in list order — the
first strategy with the full timeout, every subsequent one with
`min(timeout, 3)` — returns the first element found, returns `None` exactly
when every strategy fails; an unknown method name yields `None`; and the
per-strategy wait never lets an element-absence exception escape:
stale-reference and not-found only prolong the poll, and the final
`TimeoutException` is caught and turned into the value `None`. -/
theorem find_with_fallback_contract
    (locate : String → String → ℚ → Option Nat)
    (strategies : List (String × String)) (timeout : ℚ) :
    (∀ e : Nat, find_with_fallback locate strategies timeout = some e ↔
        ∃ j, ∃ hj : j < strategies.length,
          find_by_method locate (strategies.get ⟨j, hj⟩).1
            (strategies.get ⟨j, hj⟩).2
            (if j = 0 then timeout else min timeout 3) = some e
          ∧ ∀ j', (hj' : j' < strategies.length) → j' < j →
              find_by_method locate (strategies.get ⟨j', hj'⟩).1
                (strategies.get ⟨j', hj'⟩).2
                (if j' = 0 then timeout else min timeout 3) = none)
    ∧ (find_with_fallback locate strategies timeout = none ↔
        ∀ j, (hj : j < strategies.length) →
          find_by_method locate (strategies.get ⟨j, hj⟩).1
            (strategies.get ⟨j, hj⟩).2
            (if j = 0 then timeout else min timeout 3) = none)
    ∧ (∀ (m v : String) (t : ℚ), m ∉ SELECTOR_METHODS →
        find_by_method locate m v t = none)
    ∧ (∀ polls : List PollStep,
        locate_with_ignores polls = Except.ok (firstFound polls)) := by
  have h := find_with_fallback_from_spec locate timeout strategies 0
  refine ⟨?_, ?_, ?_, wait_until_never_raises_absence⟩
  · intro e
    have h1 := h.1 e
    simpa [find_with_fallback, Nat.zero_add] using h1
  · have h2 := h.2
    simpa [find_with_fallback, Nat.zero_add] using h2
  · intro m v t hm
    unfold find_by_method
    rw [if_neg hm]

/-- Witness for C7: an unknown selector method yields `None`, and a poll
trace consisting of a stale reference, a not-found and then a hit is
swallowed into the value `some 7`. -/
theorem find_with_fallback_contract_witness :
    find_by_method (fun _ _ _ => none) "bogus" "x" 5 = none
    ∧ locate_with_ignores
        [PollStep.staleElement, PollStep.noSuchElement, PollStep.found 7]
      = Except.ok (some 7) := by
  constructor
  · exact (find_with_fallback_contract (fun _ _ _ => none) [] 5).2.2.1
      "bogus" "x" 5 (by decide)
  · exact (find_with_fallback_contract (fun _ _ _ => none) [] 5).2.2.2 _

/-! ## Evidence recorder (`appium_core/evidence.py`)

Python strings are modelled as `List Char` and Python's lexical string
order as `List.Lex (· < ·)` on the character codes.  The wall clock enters
as an oracle: each capture event carries the formatted millisecond
timestamp `now.strftime("%Y%m%d_%H%M%S") + f"{now.microsecond // 1000:03d}"`
that `_generate_filename` would read, plus whether
`driver.get_screenshot_as_png()` succeeds. -/

def MAX_SCREENSHOTS_PER_JOB : Nat := 20

def FORBIDDEN_FILENAME_CHARS : List Char :=
  ['\\', '/', ':', '*', '?', '"', '<', '>', '|']

/-- `EvidenceCapture._sanitize`: strip filename-unsafe characters, truncate
to 50. -/
def _sanitize (text : List Char) : List Char :=
  (text.filter (fun c => decide (c ∉ FORBIDDEN_FILENAME_CHARS))).take 50

def digitChar (d : Nat) : Char := Char.ofNat (48 + d)

/-- Decimal rendering of a natural number (the digits of Python's `d`
format); the structural fuel argument (`n + 1` suffices since `n / 10`
shrinks) keeps the definition kernel-reducible. -/
def natDecimalAux : Nat → Nat → List Char
  | 0, _ => []
  | f + 1, n =>
    if n < 10 then [digitChar n]
    else natDecimalAux f (n / 10) ++ [digitChar (n % 10)]

def natDecimal (n : Nat) : List Char := natDecimalAux (n + 1) n

/-- Python `f"{n:02d}"`: decimal digits zero-padded on the left to width
two (wider numbers print in full). -/
def pyFormat02d (n : Nat) : List Char :=
  if (natDecimal n).length < 2 then
    List.replicate (2 - (natDecimal n).length) '0' ++ natDecimal n
  else natDecimal n

/-- The filename `f"{ts}_{seq:02d}_{safe_job}_{safe_action}.{ext}"`,
decomposed as timestamp, sequence and the job/action/extension tail. -/
def mkFilename (ts : List Char) (seq : Nat) (tail : List Char) : List Char :=
  ts ++ '_' :: (pyFormat02d seq ++ '_' :: tail)

structure CaptureEvent where
  ts : List Char
  ok : Bool
  action : List Char

structure EvidenceState where
  job : Option (List Char)
  files : List (List Char)
  sequence : Nat
  last_timestamp : List Char

/-- `EvidenceCapture.start_job`: fresh file list and a zeroed sequence; the
`_last_timestamp` of a previous job survives. -/
def start_job (st : EvidenceState) (assignment_id : List Char) :
    EvidenceState :=
  { job := some assignment_id, files := [], sequence := 0,
    last_timestamp := st.last_timestamp }

/-- `EvidenceCapture._generate_filename` at clock reading `ts`: bump the
within-millisecond sequence on a timestamp collision, else reset it; returns
the filename and the updated `_sequence` / `_last_timestamp`. -/
def generate_filename (seq : Nat) (last ts : List Char)
    (job_id action : List Char) : List Char × Nat × List Char :=
  ((mkFilename ts (if ts = last then seq + 1 else 0)
      ((_sanitize job_id).take 50 ++ '_' ::
        (_sanitize action ++ ['.', 'p', 'n', 'g']))),
   (if ts = last then seq + 1 else 0), ts)

/-- `EvidenceCapture.capture_screenshot`: no active job or a full job
(`MAX_SCREENSHOTS_PER_JOB` files) yields `None` without any state change;
otherwise a filename is generated (always advancing the sequence state) and
the file is recorded only when the driver screenshot succeeds. -/
def capture_screenshot (st : EvidenceState) (ev : CaptureEvent) :
    Option (List Char) × EvidenceState :=
  match st.job with
  | none => (none, st)
  | some aid =>
    if MAX_SCREENSHOTS_PER_JOB ≤ st.files.length then (none, st)
    else
      match generate_filename st.sequence st.last_timestamp ev.ts aid
          ev.action with
      | (fname, seqN, lastN) =>
        if ev.ok then
          (some fname, { st with files := st.files ++ [fname],
                                 sequence := seqN, last_timestamp := lastN })
        else
          (none, { st with sequence := seqN, last_timestamp := lastN })

/-- The evidence state after a sequence of capture calls. -/
def captureRun (st : EvidenceState) (trace : List CaptureEvent) :
    EvidenceState :=
  trace.foldl (fun s e => (capture_screenshot s e).2) st

theorem lexLt_trans : ∀ {a b c : List Char}, List.Lex (· < ·) a b →
    List.Lex (· < ·) b c → List.Lex (· < ·) a c := by
  intro a b c h1 h2
  induction h2 generalizing a with
  | nil => exact absurd h1 (List.Lex.not_nil_right _ _)
  | cons h ih =>
    cases h1 with
    | nil => exact List.Lex.nil
    | cons h1' => exact List.Lex.cons (ih h1')
    | rel hr => exact List.Lex.rel hr
  | rel hr =>
    cases h1 with
    | nil => exact List.Lex.nil
    | cons h1' => exact List.Lex.rel hr
    | rel hr' => exact List.Lex.rel (lt_trans hr' hr)

theorem lexLt_irrefl : ∀ (a : List Char), ¬ List.Lex (· < ·) a a := by
  intro a
  induction a with
  | nil => exact List.Lex.not_nil_right _ _
  | cons c rest ih =>
    intro h
    cases h with
    | cons h' => exact ih h'
    | rel hr => exact lt_irrefl _ hr

theorem lexLt_ne {a b : List Char} (h : List.Lex (· < ·) a b) : a ≠ b := by
  rintro rfl
  exact lexLt_irrefl a h

/-- Fixed-width prefixes decide the lexical order of the whole strings. -/
theorem lex_append_of_length_eq : ∀ {a b : List Char},
    a.length = b.length → List.Lex (· < ·) a b →
    ∀ x y, List.Lex (· < ·) (a ++ x) (b ++ y) := by
  intro a b hlen h
  induction h with
  | nil => simp at hlen
  | cons h ih =>
    intro x y
    exact List.Lex.cons (ih (by simpa using hlen) x y)
  | rel hr =>
    intro x y
    exact List.Lex.rel hr

theorem digitChar_mono : ∀ a < 10, ∀ b < 10, a < b →
    digitChar a < digitChar b := by decide

theorem natDecimalAux_of_lt10 {f m : Nat} (hf : 0 < f) (h : m < 10) :
    natDecimalAux f m = [digitChar m] := by
  cases f with
  | zero => omega
  | succ f0 => simp [natDecimalAux, h]

theorem natDecimal_eq_of_lt10 {n : Nat} (h : n < 10) :
    natDecimal n = [digitChar n] :=
  natDecimalAux_of_lt10 (Nat.succ_pos n) h

theorem natDecimal_eq_of_two {n : Nat} (h1 : 10 ≤ n) (h2 : n < 100) :
    natDecimal n = [digitChar (n / 10)] ++ [digitChar (n % 10)] := by
  have hstep : natDecimal n
      = if n < 10 then [digitChar n]
        else natDecimalAux n (n / 10) ++ [digitChar (n % 10)] := rfl
  rw [hstep, if_neg (by omega),
    natDecimalAux_of_lt10 (by omega) (by omega)]

theorem pyFormat02d_eq {n : Nat} (h : n < 100) :
    pyFormat02d n = [digitChar (n / 10), digitChar (n % 10)] := by
  by_cases h10 : n < 10
  · unfold pyFormat02d
    rw [natDecimal_eq_of_lt10 h10]
    have hd : n / 10 = 0 := Nat.div_eq_of_lt h10
    have hm : n % 10 = n := Nat.mod_eq_of_lt h10
    rw [hd, hm]
    rfl
  · unfold pyFormat02d
    rw [natDecimal_eq_of_two (by omega) h]
    simp

theorem pyFormat02d_length {n : Nat} (h : n < 100) :
    (pyFormat02d n).length = 2 := by
  rw [pyFormat02d_eq h]
  rfl

theorem pyFormat02d_lt {a b : Nat} (hb : b < 100) (h : a < b) :
    List.Lex (· < ·) (pyFormat02d a) (pyFormat02d b) := by
  have ha : a < 100 := lt_trans h hb
  rw [pyFormat02d_eq ha, pyFormat02d_eq hb]
  by_cases hd : a / 10 = b / 10
  · have hm : a % 10 < b % 10 := by omega
    rw [hd]
    exact List.Lex.cons
      (List.Lex.rel (digitChar_mono _ (by omega) _ (by omega) hm))
  · have hdlt : a / 10 < b / 10 := by omega
    exact List.Lex.rel (digitChar_mono _ (by omega) _ (by omega) hdlt)

/-- Reflexive closure of the lexical order (the order of the timestamp
oracle readings: the clock never goes backwards). -/
def leLex (a b : List Char) : Prop := a = b ∨ List.Lex (· < ·) a b

instance leLex_decidable (a b : List Char) : Decidable (leLex a b) :=
  inferInstanceAs (Decidable (a = b ∨ List.Lex (· < ·) a b))

theorem leLex_trans {a b c : List Char} (h1 : leLex a b) (h2 : leLex b c) :
    leLex a c := by
  rcases h1 with rfl | h1
  · exact h2
  · rcases h2 with rfl | h2
    · exact Or.inr h1
    · exact Or.inr (lexLt_trans h1 h2)

/-- The sequence value `_generate_filename` would use at state `st` for a
capture at clock reading `ev.ts`. -/
def nextSeq (st : EvidenceState) (ev : CaptureEvent) : Nat :=
  if ev.ts = st.last_timestamp then st.sequence + 1 else 0

/-- The filename `_generate_filename` would produce at state `st`. -/
def nextName (st : EvidenceState) (aid : List Char) (ev : CaptureEvent) :
    List Char :=
  mkFilename ev.ts (nextSeq st ev)
    ((_sanitize aid).take 50 ++ '_' :: (_sanitize ev.action ++ ['.', 'p', 'n', 'g']))

theorem generate_filename_eq (st : EvidenceState) (aid : List Char)
    (ev : CaptureEvent) :
    generate_filename st.sequence st.last_timestamp ev.ts aid ev.action
      = (nextName st aid ev, nextSeq st ev, ev.ts) := rfl

theorem capture_of_no_job {st : EvidenceState} (ev : CaptureEvent)
    (h : st.job = none) : capture_screenshot st ev = (none, st) := by
  unfold capture_screenshot
  rw [h]

theorem capture_of_full {st : EvidenceState} {aid : List Char}
    (ev : CaptureEvent) (hjob : st.job = some aid)
    (h : MAX_SCREENSHOTS_PER_JOB ≤ st.files.length) :
    capture_screenshot st ev = (none, st) := by
  obtain ⟨job, files, seq, last⟩ := st
  simp only at hjob h
  subst hjob
  show (if MAX_SCREENSHOTS_PER_JOB ≤ files.length then _ else _) = _
  rw [if_pos h]

theorem capture_of_ok {st : EvidenceState} {aid : List Char}
    {ev : CaptureEvent} (hjob : st.job = some aid)
    (hcap : ¬ MAX_SCREENSHOTS_PER_JOB ≤ st.files.length) (hok : ev.ok = true) :
    capture_screenshot st ev
      = (some (nextName st aid ev),
         { st with files := st.files ++ [nextName st aid ev],
                   sequence := nextSeq st ev, last_timestamp := ev.ts }) := by
  obtain ⟨job, files, seq, last⟩ := st
  simp only at hjob hcap
  subst hjob
  show (if MAX_SCREENSHOTS_PER_JOB ≤ files.length then _ else _) = _
  rw [if_neg hcap]
  show (if ev.ok = true then _ else _) = _
  rw [if_pos hok]
  rfl

theorem capture_of_fail {st : EvidenceState} {aid : List Char}
    {ev : CaptureEvent} (hjob : st.job = some aid)
    (hcap : ¬ MAX_SCREENSHOTS_PER_JOB ≤ st.files.length)
    (hok : ev.ok = false) :
    capture_screenshot st ev
      = (none, { st with sequence := nextSeq st ev,
                         last_timestamp := ev.ts }) := by
  obtain ⟨job, files, seq, last⟩ := st
  simp only at hjob hcap
  subst hjob
  show (if MAX_SCREENSHOTS_PER_JOB ≤ files.length then _ else _) = _
  rw [if_neg hcap]
  show (if ev.ok = true then _ else _) = _
  rw [if_neg (by rw [hok]; exact Bool.false_ne_true)]
  rfl

/-- The shape every recorded filename keeps relative to the recorder
state: it was minted from some past clock reading and a then-valid
sequence number, both dominated by the current
`_last_timestamp` / `_sequence`. -/
structure EvInv (tsLen : Nat) (st : EvidenceState) : Prop where
  sorted : st.files.Pairwise (fun a b => List.Lex (· < ·) a b)
  cap : st.files.length ≤ MAX_SCREENSHOTS_PER_JOB
  files_form : ∀ f ∈ st.files, ∃ t s tail, f = mkFilename t s tail
      ∧ t.length = tsLen ∧ s < 100
      ∧ (t = st.last_timestamp → s ≤ st.sequence)
      ∧ (t ≠ st.last_timestamp → List.Lex (· < ·) t st.last_timestamp)

/-- The hypotheses on the remaining capture trace: fixed-width timestamps,
a non-decreasing clock, the state's timestamp not ahead of the trace when
files exist, and fewer than 100 same-millisecond collisions. -/
structure TraceOk (tsLen : Nat) (st : EvidenceState)
    (trace : List CaptureEvent) : Prop where
  lens : ∀ e ∈ trace, e.ts.length = tsLen
  chain : List.Chain' leLex (trace.map CaptureEvent.ts)
  anchor : st.files ≠ [] → ∀ e ∈ trace.head?, leLex st.last_timestamp e.ts
  seq_bound : st.sequence
      + (trace.map CaptureEvent.ts).count st.last_timestamp ≤ 99
  occ : ∀ t, (trace.map CaptureEvent.ts).count t ≤ 99

theorem mkFilename_lt_of_same_ts {t tail tail' : List Char} {s s' : Nat}
    (hlt : s < s') (hs' : s' < 100) :
    List.Lex (· < ·) (mkFilename t s tail) (mkFilename t s' tail') := by
  unfold mkFilename
  have h1 : t ++ '_' :: (pyFormat02d s ++ '_' :: tail)
      = (t ++ ['_']) ++ (pyFormat02d s ++ '_' :: tail) := by simp
  have h2 : t ++ '_' :: (pyFormat02d s' ++ '_' :: tail')
      = (t ++ ['_']) ++ (pyFormat02d s' ++ '_' :: tail') := by simp
  rw [h1, h2]
  apply List.Lex.append_left
  exact lex_append_of_length_eq
    (by rw [pyFormat02d_length (lt_trans hlt hs'), pyFormat02d_length hs'])
    (pyFormat02d_lt hs' hlt) _ _

theorem mkFilename_lt_of_ts_lt {t t' tail tail' : List Char} {s s' : Nat}
    (hlen : t.length = t'.length) (hts : List.Lex (· < ·) t t') :
    List.Lex (· < ·) (mkFilename t s tail) (mkFilename t' s' tail') := by
  unfold mkFilename
  exact lex_append_of_length_eq hlen hts _ _

theorem count_tail_le (x b : List Char) (l : List (List Char)) :
    l.count x ≤ (b :: l).count x := by
  rw [List.count_cons]
  exact Nat.le_add_right _ _

theorem traceOk_tail_unchanged {tsLen : Nat} {st : EvidenceState}
    {e : CaptureEvent} {rest : List CaptureEvent}
    (h : TraceOk tsLen st (e :: rest)) : TraceOk tsLen st rest := by
  obtain ⟨hlens, hchain, hanchor, hseq, hocc⟩ := h
  simp only [List.map_cons] at hchain hseq
  refine ⟨fun x hx => hlens x (List.mem_cons_of_mem _ hx), hchain.tail,
    ?_, ?_, ?_⟩
  · intro hne e' he'
    have h1 : leLex st.last_timestamp e.ts := hanchor hne e (by simp)
    have h2 := (List.chain'_cons'.mp hchain).1
    have h3 : e'.ts ∈ (rest.map CaptureEvent.ts).head? := by
      rw [List.head?_map, he']
      rfl
    exact leLex_trans h1 (h2 _ h3)
  · exact le_trans
      (Nat.add_le_add_left (count_tail_le _ _ _) st.sequence) hseq
  · intro t
    have := hocc t
    rw [List.map_cons] at this
    exact le_trans (count_tail_le _ _ _) this

theorem capture_step {tsLen : Nat} {st : EvidenceState} {e : CaptureEvent}
    {rest : List CaptureEvent}
    (hinv : EvInv tsLen st) (htr : TraceOk tsLen st (e :: rest)) :
    EvInv tsLen (capture_screenshot st e).2
    ∧ TraceOk tsLen (capture_screenshot st e).2 rest := by
  cases hj : st.job with
  | none =>
    rw [capture_of_no_job e hj]
    exact ⟨hinv, traceOk_tail_unchanged htr⟩
  | some aid =>
    by_cases hfull : MAX_SCREENSHOTS_PER_JOB ≤ st.files.length
    · rw [capture_of_full e hj hfull]
      exact ⟨hinv, traceOk_tail_unchanged htr⟩
    · obtain ⟨hsorted, hcap, hform⟩ := hinv
      obtain ⟨hlens, hchain, hanchor, hseq, hocc⟩ := htr
      have hts_len : e.ts.length = tsLen := hlens e (List.mem_cons_self _ _)
      have hseqN : nextSeq st e < 100 := by
        unfold nextSeq
        by_cases hteq : e.ts = st.last_timestamp
        · rw [if_pos hteq]
          have hcnt : (List.map CaptureEvent.ts (e :: rest)).count
              st.last_timestamp
              = (List.map CaptureEvent.ts rest).count st.last_timestamp
                  + 1 := by
            rw [List.map_cons, hteq, List.count_cons_self]
          rw [hcnt] at hseq
          omega
        · rw [if_neg hteq]
          omega
      have hseq_rest : nextSeq st e
          + (rest.map CaptureEvent.ts).count e.ts ≤ 99 := by
        unfold nextSeq
        by_cases hteq : e.ts = st.last_timestamp
        · rw [if_pos hteq]
          have hcnt : (List.map CaptureEvent.ts (e :: rest)).count
              st.last_timestamp
              = (List.map CaptureEvent.ts rest).count st.last_timestamp
                  + 1 := by
            rw [List.map_cons, hteq, List.count_cons_self]
          rw [hcnt] at hseq
          rw [hteq]
          omega
        · rw [if_neg hteq]
          have := hocc e.ts
          rw [List.map_cons, List.count_cons_self] at this
          omega
      have hanchor0 : st.files ≠ [] → leLex st.last_timestamp e.ts :=
        fun hne => hanchor hne e (by simp)
      -- every recorded file compares with the incoming event
      have htrans : ∀ f ∈ st.files, ∃ t s tail, f = mkFilename t s tail
          ∧ t.length = tsLen ∧ s < 100
          ∧ ((t = e.ts ∧ s < nextSeq st e ∧ nextSeq st e < 100)
             ∨ (t ≠ e.ts ∧ List.Lex (· < ·) t e.ts)) := by
        intro f hf
        have hne : st.files ≠ [] := fun hnil => by
          rw [hnil] at hf
          exact absurd hf (List.not_mem_nil f)
        obtain ⟨t, s, tail, hfe, htl, hs100, heq, hlex⟩ := hform f hf
        have ha0 := hanchor0 hne
        refine ⟨t, s, tail, hfe, htl, hs100, ?_⟩
        by_cases hte : t = e.ts
        · left
          by_cases hlt : e.ts = st.last_timestamp
          · have hs : s ≤ st.sequence := heq (hte.trans hlt)
            refine ⟨hte, ?_, hseqN⟩
            unfold nextSeq
            rw [if_pos hlt]
            omega
          · exfalso
            have h1 : List.Lex (· < ·) t st.last_timestamp := hlex
              (fun hc => hlt (hte.symm.trans hc))
            rcases ha0 with hc | h2
            · exact hlt hc.symm
            · rw [hte] at h1
              exact lexLt_irrefl _ (lexLt_trans h1 h2)
        · right
          refine ⟨hte, ?_⟩
          by_cases htl2 : t = st.last_timestamp
          · rcases ha0 with hc | h2
            · exact absurd (htl2.trans hc) hte
            · rw [htl2]
              exact h2
          · have h1 := hlex htl2
            rcases ha0 with hc | h2
            · rw [← hc]
              exact h1
            · exact lexLt_trans h1 h2
      have hform' : ∀ f ∈ st.files, ∃ t s tail, f = mkFilename t s tail
          ∧ t.length = tsLen ∧ s < 100
          ∧ (t = e.ts → s ≤ nextSeq st e)
          ∧ (t ≠ e.ts → List.Lex (· < ·) t e.ts) := by
        intro f hf
        obtain ⟨t, s, tail, hfe, htl, hs100, hdisj⟩ := htrans f hf
        refine ⟨t, s, tail, hfe, htl, hs100, ?_, ?_⟩
        · intro hte
          rcases hdisj with ⟨_, hlt, _⟩ | ⟨hne, _⟩
          · exact le_of_lt hlt
          · exact absurd hte hne
        · intro hte
          rcases hdisj with ⟨heq, _, _⟩ | ⟨_, hlex⟩
          · exact absurd heq hte
          · exact hlex
      have hlt_new : ∀ f ∈ st.files,
          List.Lex (· < ·) f (nextName st aid e) := by
        intro f hf
        obtain ⟨t, s, tail, hfe, htl, hs100, hdisj⟩ := htrans f hf
        rw [hfe]
        unfold nextName
        rcases hdisj with ⟨hte, hlt, h100⟩ | ⟨_, hlex⟩
        · rw [hte]
          exact mkFilename_lt_of_same_ts hlt h100
        · exact mkFilename_lt_of_ts_lt (htl.trans hts_len.symm) hlex
      have htail_ok : TraceOk tsLen
          { st with sequence := nextSeq st e, last_timestamp := e.ts }
          rest := by
        refine ⟨fun x hx => hlens x (List.mem_cons_of_mem _ hx), ?_, ?_, ?_,
          ?_⟩
        · rw [List.map_cons] at hchain
          exact hchain.tail
        · intro _ e' he'
          rw [List.map_cons] at hchain
          have h2 := (List.chain'_cons'.mp hchain).1
          have h3 : e'.ts ∈ (rest.map CaptureEvent.ts).head? := by
            rw [List.head?_map, he']
            rfl
          exact h2 _ h3
        · exact hseq_rest
        · intro t
          have := hocc t
          rw [List.map_cons] at this
          exact le_trans (count_tail_le _ _ _) this
      cases hok : e.ok with
      | false =>
        rw [capture_of_fail hj hfull hok]
        refine ⟨⟨hsorted, hcap, ?_⟩, htail_ok⟩
        intro f hf
        exact hform' f hf
      | true =>
        rw [capture_of_ok hj hfull hok]
        constructor
        · refine ⟨?_, ?_, ?_⟩
          · show (st.files ++ [nextName st aid e]).Pairwise _
            rw [List.pairwise_append]
            refine ⟨hsorted, List.pairwise_singleton _ _, ?_⟩
            intro a ha b hb
            rw [List.mem_singleton] at hb
            subst hb
            exact hlt_new a ha
          · show (st.files ++ [nextName st aid e]).length ≤ _
            rw [List.length_append]
            simp only [List.length_singleton]
            unfold MAX_SCREENSHOTS_PER_JOB at hfull ⊢
            omega
          · intro f hf
            rw [List.mem_append] at hf
            rcases hf with hf | hf
            · obtain ⟨t, s, tail, hfe, htl, hs100, heq2, hlex2⟩ :=
                hform' f hf
              exact ⟨t, s, tail, hfe, htl, hs100, heq2, hlex2⟩
            · rw [List.mem_singleton] at hf
              subst hf
              refine ⟨e.ts, nextSeq st e, _, rfl, hts_len, hseqN,
                fun _ => le_refl _, fun hne => absurd rfl hne⟩
        · refine ⟨htail_ok.lens, htail_ok.chain, ?_, htail_ok.seq_bound,
            htail_ok.occ⟩
          intro _ e' he'
          rw [List.map_cons] at hchain
          have h2 := (List.chain'_cons'.mp hchain).1
          have h3 : e'.ts ∈ (rest.map CaptureEvent.ts).head? := by
            rw [List.head?_map, he']
            rfl
          exact h2 _ h3

theorem captureRun_inv {tsLen : Nat} :
    ∀ (trace : List CaptureEvent) (st : EvidenceState),
      EvInv tsLen st → TraceOk tsLen st trace →
      EvInv tsLen (captureRun st trace) := by
  intro trace
  induction trace with
  | nil => exact fun st h _ => h
  | cons e rest ih =>
    intro st hinv htr
    have h := capture_step hinv htr
    exact ih _ h.1 h.2

set_option maxRecDepth 40000 in
/-- **C8 (amended).** For every evidence job, `capture_screenshot` records
at most `MAX_SCREENSHOTS` (= 20) screenshots — calls beyond the cap return
`None` without writing a file — and, provided the clock readings are
fixed-width, non-decreasing, and fewer than 100 capture attempts share any
single millisecond timestamp (so the two-digit sequence field never
overflows), the recorded filenames are pairwise distinct and strictly
increasing in lexical order with capture time. -/
theorem evidence_screenshot_cap_and_order (st0 : EvidenceState)
    (aid : List Char) (trace : List CaptureEvent) (tsLen : Nat)
    (hlen : ∀ e ∈ trace, e.ts.length = tsLen)
    (hchain : List.Chain' leLex (trace.map CaptureEvent.ts))
    (hocc : ∀ t, (trace.map CaptureEvent.ts).count t ≤ 99) :
    (captureRun (start_job st0 aid) trace).files.length
      ≤ MAX_SCREENSHOTS_PER_JOB
    ∧ (captureRun (start_job st0 aid) trace).files.Pairwise
        (fun a b => List.Lex (· < ·) a b ∧ a ≠ b)
    ∧ (∀ (st : EvidenceState) (ev : CaptureEvent),
        MAX_SCREENSHOTS_PER_JOB ≤ st.files.length →
        capture_screenshot st ev = (none, st)) := by
  have hinv0 : EvInv tsLen (start_job st0 aid) := by
    refine ⟨List.Pairwise.nil, by simp [start_job, MAX_SCREENSHOTS_PER_JOB],
      ?_⟩
    intro f hf
    exact absurd hf (List.not_mem_nil f)
  have htr0 : TraceOk tsLen (start_job st0 aid) trace := by
    refine ⟨hlen, hchain, fun hne => absurd rfl hne, ?_, hocc⟩
    simpa [start_job] using hocc st0.last_timestamp
  have h := captureRun_inv trace _ hinv0 htr0
  refine ⟨h.cap, ?_, ?_⟩
  · exact h.sorted.imp (fun hab => ⟨hab, lexLt_ne hab⟩)
  · intro st ev hfl
    cases hjx : st.job with
    | none => exact capture_of_no_job ev hjx
    | some aid2 => exact capture_of_full ev hjx hfl

def overflowTs : List Char := "20250101_120000000".data

/-- 99 capture attempts whose driver screenshot fails, then two successful
ones, all within the same millisecond. -/
def overflowTrace : List CaptureEvent :=
  List.replicate 99 ⟨overflowTs, false, ['a']⟩
    ++ [⟨overflowTs, true, ['a']⟩, ⟨overflowTs, true, ['a']⟩]

set_option maxRecDepth 40000 in
/-- **C8 (counterexample).** With 101 capture attempts in one millisecond
the `%02d` sequence field reaches 100 and becomes three digits wide: the
job records exactly the files `..._99_j_a.png` and `..._100_j_a.png`, and
the later one is lexically smaller, so the recorded filenames are not
strictly increasing with capture time. -/
theorem evidence_filename_order_counterexample :
    (captureRun (start_job ⟨none, [], 0, []⟩ ['j']) overflowTrace).files.length
        = 2
    ∧ ¬ (captureRun (start_job ⟨none, [], 0, []⟩ ['j'])
          overflowTrace).files.Pairwise
          (fun a b => List.Lex (· < ·) a b) := by
  constructor
  · decide
  · decide

/-- Witness for the amended C8: a two-capture job across two successive
milliseconds records two filenames in strictly increasing lexical order. -/
theorem evidence_screenshot_cap_and_order_witness :
    (captureRun (start_job ⟨none, [], 0, []⟩ ['j'])
        [⟨"20250101_120000000".data, true, ['x']⟩,
         ⟨"20250101_120000001".data, true, ['y']⟩]).files.Pairwise
      (fun a b => List.Lex (· < ·) a b ∧ a ≠ b) :=
  (evidence_screenshot_cap_and_order ⟨none, [], 0, []⟩ ['j']
    [⟨"20250101_120000000".data, true, ['x']⟩,
     ⟨"20250101_120000001".data, true, ['y']⟩] 18
    (by decide)
    (by
      show List.Chain' leLex
        ["20250101_120000000".data, "20250101_120000001".data]
      exact List.chain'_pair.mpr (by decide))
    (fun t => le_trans (List.count_le_length t _) (by decide))).2.1

/-! ## Probabilistic interactions (`youtube/youtube_actions.py`)

`YouTubeInteractions.perform_interactions` draws `random.randint(1, 100)`
once per configured interaction; the draws are oracle inputs.  The body is
embedded as the ordered log of `_try_*` helpers it invokes.  Python keyword
calls are modelled by the callee's parameter-name list: a call supplying a
keyword not in that list raises `TypeError`. -/

/-- The keyword parameters of
`YouTubeInteractions.perform_interactions(self, ...)`
(youtube_actions.py lines 65-71). -/
def PERFORM_INTERACTIONS_PARAMS : List String :=
  ["prob_like", "prob_comment", "prob_subscribe", "comment_text"]

/-- The keyword arguments `YouTubeBotOrchestrator.execute_job` passes at its
interaction step (bot_orchestrator.py lines 164-169). -/
def ORCHESTRATOR_INTERACTION_KWARGS : List String :=
  ["prob_like", "prob_comment", "prob_subscribe", "prob_playlist",
   "comment_text"]

/-- Python call semantics: a keyword call succeeds only when every supplied
keyword is a parameter of the callee. -/
def kwargs_call_ok (params kwargs : List String) : Bool :=
  kwargs.all (fun k => decide (k ∈ params))

/-- The outcomes of the independent `random.randint(1, 100)` draws. -/
structure InteractionDraws where
  like_draw : Nat
  comment_draw : Nat
  subscribe_draw : Nat

/-- The ordered log of interaction attempts `perform_interactions` makes:
a `_try_like`, then a `_try_comment`, then a `_try_subscribe`, each guarded
by `prob > 0 and randint(1,100) <= prob`. -/
def attempted_interactions (prob_like prob_comment prob_subscribe : Nat)
    (d : InteractionDraws) : List String :=
  (if prob_like > 0 ∧ d.like_draw ≤ prob_like then ["like"] else [])
  ++ (if prob_comment > 0 ∧ d.comment_draw ≤ prob_comment then ["comment"]
      else [])
  ++ (if prob_subscribe > 0 ∧ d.subscribe_draw ≤ prob_subscribe then
        ["subscribe"] else [])

/-- **C3 (code evaluated at the failing input).** The orchestrator's
interaction step passes `prob_playlist`, a keyword
`YouTubeInteractions.perform_interactions` does not accept, so the call
raises `TypeError` on every job that reaches it; and the interactions the
callee implements run in the order like, comment, subscribe — there is no
playlist attempt, and each interaction is attempted at most once. -/
theorem interactions_playlist_type_error :
    ("prob_playlist" ∈ ORCHESTRATOR_INTERACTION_KWARGS)
    ∧ ("prob_playlist" ∉ PERFORM_INTERACTIONS_PARAMS)
    ∧ kwargs_call_ok PERFORM_INTERACTIONS_PARAMS
        ORCHESTRATOR_INTERACTION_KWARGS = false
    ∧ (∀ (pl pc ps : Nat) (d : InteractionDraws),
        "playlist" ∉ attempted_interactions pl pc ps d
        ∧ (attempted_interactions pl pc ps d).count "like" ≤ 1
        ∧ (attempted_interactions pl pc ps d).count "comment" ≤ 1
        ∧ (attempted_interactions pl pc ps d).count "subscribe" ≤ 1
        ∧ List.Sublist (attempted_interactions pl pc ps d)
            ["like", "comment", "subscribe"])
    ∧ attempted_interactions 100 100 100 ⟨1, 1, 1⟩
        = ["like", "comment", "subscribe"] := by
  refine ⟨by decide, by decide, by decide, ?_, by decide⟩
  intro pl pc ps d
  unfold attempted_interactions
  by_cases h1 : pl > 0 ∧ d.like_draw ≤ pl <;>
    by_cases h2 : pc > 0 ∧ d.comment_draw ≤ pc <;>
      by_cases h3 : ps > 0 ∧ d.subscribe_draw ≤ ps <;>
        simp [h1, h2, h3]

/-! ## Task service (`apps/server/services/task_service.py`)

Task rows are modelled with the fields `update_task_status` touches; the
database is an association list from opaque task ids to rows, and the
server-side `now()` timestamps are oracle inputs.  The persistence client
is abstracted to a partial map: `get_task` yields the row or `none`. -/

inductive TaskStatus where
  | pending
  | running
  | success
  | failed
  | retrying
  | cancelled
deriving DecidableEq, Repr

def TaskStatus.isTerminal : TaskStatus → Bool
  | TaskStatus.success => true
  | TaskStatus.failed => true
  | TaskStatus.cancelled => true
  | _ => false

structure TaskRow where
  celery_task_id : Nat
  status : TaskStatus
  started_at : Option Nat
  completed_at : Option Nat
  updated_at : Option Nat
  result : Option String
  error : Option String
  progress : Option Nat
  progress_message : Option String
deriving DecidableEq, Repr

/-- A freshly inserted task row (`TaskService.create_task`): status
`pending`, no timestamps. -/
def TaskRow.fresh (cid : Nat) : TaskRow :=
  { celery_task_id := cid, status := TaskStatus.pending, started_at := none,
    completed_at := none, updated_at := none, result := none, error := none,
    progress := none, progress_message := none }

/-- `TaskService.update_task_status` (task_service.py lines 88-119): set the
status and `updated_at`; stamp `started_at` on `running` and `completed_at`
on any terminal status; overwrite the optional fields only when supplied. -/
def update_task_status (now : Nat) (status : TaskStatus)
    (result error : Option String) (progress : Option Nat)
    (progress_message : Option String) (row : TaskRow) : TaskRow :=
  { row with
    status := status
    updated_at := some now
    started_at :=
      if status = TaskStatus.running then some now else row.started_at
    completed_at :=
      if status = TaskStatus.success ∨ status = TaskStatus.failed
          ∨ status = TaskStatus.cancelled then some now
      else row.completed_at
    result := match result with | some v => some v | none => row.result
    error := match error with | some v => some v | none => row.error
    progress := match progress with | some v => some v | none => row.progress
    progress_message := match progress_message with
      | some v => some v
      | none => row.progress_message }

/-- `TaskService.get_task` over the abstract store. -/
def get_task (db : List (Nat × TaskRow)) (task_id : Nat) : Option TaskRow :=
  match db with
  | [] => none
  | (k, r) :: rest => if k = task_id then some r else get_task rest task_id

def set_task (db : List (Nat × TaskRow)) (task_id : Nat) (row : TaskRow) :
    List (Nat × TaskRow) :=
  match db with
  | [] => []
  | (k, r) :: rest =>
    if k = task_id then (k, row) :: rest
    else (k, r) :: set_task rest task_id row

/-- `TaskService.cancel_task` (task_service.py lines 369-380): look the row
up; on a miss return `None` at once; otherwise revoke the broker task with
`terminate=True` and update the row to `cancelled`.  The returned triple is
(returned row, store afterwards, broker ids revoked). -/
def cancel_task (db : List (Nat × TaskRow)) (task_id now : Nat) :
    Option TaskRow × List (Nat × TaskRow) × List Nat :=
  match get_task db task_id with
  | none => (none, db, [])
  | some row =>
    match update_task_status now TaskStatus.cancelled none none none none
        row with
    | row2 => (some row2, set_task db task_id row2, [row.celery_task_id])

/-- One `update_task_status` call with its server clock reading. -/
structure UpdateCall where
  now : Nat
  status : TaskStatus
  result : Option String
  error : Option String
  progress : Option Nat
  progress_message : Option String

def applyCalls (row : TaskRow) (calls : List UpdateCall) : TaskRow :=
  calls.foldl
    (fun r c => update_task_status c.now c.status c.result c.error c.progress
      c.progress_message r) row

theorem applyCalls_started_none : ∀ (calls : List UpdateCall) (row : TaskRow),
    (applyCalls row calls).started_at = none ↔
      (row.started_at = none
        ∧ ∀ c ∈ calls, c.status ≠ TaskStatus.running) := by
  intro calls
  induction calls with
  | nil =>
    intro row
    simp [applyCalls]
  | cons c rest ih =>
    intro row
    have hstep : applyCalls row (c :: rest)
        = applyCalls (update_task_status c.now c.status c.result c.error
            c.progress c.progress_message row) rest := rfl
    rw [hstep, ih]
    have hsa : (update_task_status c.now c.status c.result c.error
        c.progress c.progress_message row).started_at
        = if c.status = TaskStatus.running then some c.now
          else row.started_at := rfl
    rw [hsa]
    by_cases hc : c.status = TaskStatus.running
    · rw [if_pos hc]
      constructor
      · rintro ⟨h1, _⟩
        exact absurd h1 (by simp)
      · rintro ⟨_, h2⟩
        exact absurd hc (h2 c (List.mem_cons_self _ _))
    · rw [if_neg hc]
      constructor
      · rintro ⟨h1, h2⟩
        refine ⟨h1, fun x hx => ?_⟩
        rcases List.mem_cons.mp hx with rfl | hx
        · exact hc
        · exact h2 x hx
      · rintro ⟨h1, h2⟩
        exact ⟨h1, fun x hx => h2 x (List.mem_cons_of_mem _ hx)⟩

theorem applyCalls_completed_none :
    ∀ (calls : List UpdateCall) (row : TaskRow),
    (applyCalls row calls).completed_at = none ↔
      (row.completed_at = none
        ∧ ∀ c ∈ calls, c.status.isTerminal = false) := by
  intro calls
  induction calls with
  | nil =>
    intro row
    simp [applyCalls]
  | cons c rest ih =>
    intro row
    have hstep : applyCalls row (c :: rest)
        = applyCalls (update_task_status c.now c.status c.result c.error
            c.progress c.progress_message row) rest := rfl
    rw [hstep, ih]
    have hca : (update_task_status c.now c.status c.result c.error
        c.progress c.progress_message row).completed_at
        = if c.status = TaskStatus.success ∨ c.status = TaskStatus.failed
              ∨ c.status = TaskStatus.cancelled then some c.now
          else row.completed_at := rfl
    rw [hca]
    by_cases hc : c.status = TaskStatus.success ∨ c.status = TaskStatus.failed
        ∨ c.status = TaskStatus.cancelled
    · have hterm : c.status.isTerminal = true := by
        rcases hc with h | h | h <;> rw [h] <;> rfl
      rw [if_pos hc]
      constructor
      · rintro ⟨h1, _⟩
        exact absurd h1 (by simp)
      · rintro ⟨_, h2⟩
        have := h2 c (List.mem_cons_self _ _)
        rw [hterm] at this
        exact absurd this (by simp)
    · have hterm : c.status.isTerminal = false := by
        cases hcs : c.status <;> first
          | rfl
          | (rw [hcs] at hc; simp at hc)
      rw [if_neg hc]
      constructor
      · rintro ⟨h1, h2⟩
        refine ⟨h1, fun x hx => ?_⟩
        rcases List.mem_cons.mp hx with rfl | hx
        · exact hterm
        · exact h2 x hx
      · rintro ⟨h1, h2⟩
        exact ⟨h1, fun x hx => h2 x (List.mem_cons_of_mem _ hx)⟩

/-- **C5 (counterexample).** Cancelling a task that never ran — via
`cancel_task` on a pending row — produces `status = cancelled` with
`started_at` still null, refuting `started_at is null ⇔ status = pending`;
and an `update_task_status` sequence `success` then `running` leaves
`completed_at` set while the status is `running`, refuting
`completed_at is null ⇔ status ∈ {pending, running, retrying}`. -/
theorem task_timestamp_iff_counterexample :
    (∃ row2, (cancel_task [(7, TaskRow.fresh 1)] 7 5).1 = some row2
      ∧ row2.status = TaskStatus.cancelled
      ∧ row2.started_at = none
      ∧ ¬ ((row2.started_at = none) ↔ (row2.status = TaskStatus.pending)))
    ∧ (¬ (((applyCalls (TaskRow.fresh 1)
            [⟨2, TaskStatus.success, none, none, none, none⟩,
             ⟨3, TaskStatus.running, none, none, none, none⟩]).completed_at
              = none)
          ↔ ((applyCalls (TaskRow.fresh 1)
            [⟨2, TaskStatus.success, none, none, none, none⟩,
             ⟨3, TaskStatus.running, none, none, none, none⟩]).status
              = TaskStatus.pending
            ∨ (applyCalls (TaskRow.fresh 1)
            [⟨2, TaskStatus.success, none, none, none, none⟩,
             ⟨3, TaskStatus.running, none, none, none, none⟩]).status
              = TaskStatus.running
            ∨ (applyCalls (TaskRow.fresh 1)
            [⟨2, TaskStatus.success, none, none, none, none⟩,
             ⟨3, TaskStatus.running, none, none, none, none⟩]).status
              = TaskStatus.retrying))) := by
  constructor
  · refine ⟨update_task_status 5 TaskStatus.cancelled none none none none
      (TaskRow.fresh 1), by decide, by decide, by decide, by decide⟩
  · decide

/-- **C5 (amended).** For every task row maintained through
`update_task_status` and `cancel_task`: `started_at` is null iff no update
to `running` has occurred, and `completed_at` is null iff no update to a
terminal status (`success`, `failed`, `cancelled`) has occurred;
`started_at` is stamped on every transition to `running` and
`completed_at` on every transition to a terminal status, including the
cancellation of a task that never ran (whose `started_at` stays null). -/
theorem task_timestamp_lifecycle (calls : List UpdateCall) (cid : Nat) :
    ((applyCalls (TaskRow.fresh cid) calls).started_at = none ↔
      ∀ c ∈ calls, c.status ≠ TaskStatus.running)
    ∧ ((applyCalls (TaskRow.fresh cid) calls).completed_at = none ↔
      ∀ c ∈ calls, c.status.isTerminal = false)
    ∧ (∀ (now : Nat) (row : TaskRow) (r e : Option String) (p : Option Nat)
        (pm : Option String),
        (update_task_status now TaskStatus.running r e p pm row).started_at
          = some now)
    ∧ (∀ (now : Nat) (row : TaskRow) (r e : Option String) (p : Option Nat)
        (pm : Option String) (s : TaskStatus), s.isTerminal = true →
        (update_task_status now s r e p pm row).completed_at = some now)
    ∧ (∀ (db : List (Nat × TaskRow)) (tid now : Nat) (row : TaskRow),
        get_task db tid = some row → row.started_at = none →
        ∃ row2, (cancel_task db tid now).1 = some row2
          ∧ row2.status = TaskStatus.cancelled
          ∧ row2.completed_at = some now
          ∧ row2.started_at = none) := by
  refine ⟨?_, ?_, ?_, ?_, ?_⟩
  · rw [applyCalls_started_none]
    simp [TaskRow.fresh]
  · rw [applyCalls_completed_none]
    simp [TaskRow.fresh]
  · intro now row r e p pm
    rfl
  · intro now row r e p pm s hs
    have : s = TaskStatus.success ∨ s = TaskStatus.failed
        ∨ s = TaskStatus.cancelled := by
      cases s <;> simp_all [TaskStatus.isTerminal]
    show (if s = TaskStatus.success ∨ s = TaskStatus.failed
        ∨ s = TaskStatus.cancelled then some now else row.completed_at)
      = some now
    rw [if_pos this]
  · intro db tid now row hget hstart
    unfold cancel_task
    rw [hget]
    refine ⟨update_task_status now TaskStatus.cancelled none none none none
      row, rfl, rfl, rfl, ?_⟩
    show (if TaskStatus.cancelled = TaskStatus.running then some now
      else row.started_at) = none
    rw [if_neg (by decide), hstart]

/-- Witness for the amended C5: cancelling the pending task `7` at time 5
stamps `completed_at` and leaves `started_at` null. -/
theorem task_timestamp_lifecycle_witness :
    ∃ row2, (cancel_task [(7, TaskRow.fresh 1)] 7 5).1 = some row2
      ∧ row2.status = TaskStatus.cancelled
      ∧ row2.completed_at = some 5
      ∧ row2.started_at = none :=
  (task_timestamp_lifecycle [] 0).2.2.2.2 [(7, TaskRow.fresh 1)] 7 5
    (TaskRow.fresh 1) (by decide) (by decide)

/-- **C10.** `cancel_task` on an id that matches no task row returns `None`
without issuing a broker revoke and without modifying any row. -/
theorem cancel_task_not_found (db : List (Nat × TaskRow)) (tid now : Nat)
    (h : get_task db tid = none) :
    cancel_task db tid now = (none, db, []) := by
  unfold cancel_task
  rw [h]

/-- Witness for C10: cancelling the unknown id 5 leaves the single-row
store untouched and revokes nothing. -/
theorem cancel_task_not_found_witness :
    cancel_task [(1, TaskRow.fresh 2)] 5 9
      = (none, [(1, TaskRow.fresh 2)], []) :=
  cancel_task_not_found [(1, TaskRow.fresh 2)] 5 9 (by decide)

/-! ## Error classification and the job orchestrator
(`youtube/error_recovery.py`, `youtube/bot_orchestrator.py`)

A raised Python exception is modelled by whether it is a
`WebDriverException` plus its message.  `str.lower` and Python's `in`
substring test are embedded directly.  `execute_job`'s effectful calls —
evidence start, app launch, navigation, the watch loop, the interaction
call and the clock — enter as an oracle environment; its result is the
`JobResult` paired with the ordered log of evidence calls made. -/

structure PyExc where
  webdriver : Bool
  msg : String
deriving DecidableEq, Repr

def pyLower (s : String) : String := String.mk (s.data.map Char.toLower)

def containsSub : List Char → List Char → Bool
  | needle, [] => needle.isEmpty
  | needle, c :: rest => needle.isPrefixOf (c :: rest) || containsSub needle rest

/-- Python's `needle in haystack` on strings. -/
def pyIn (needle hay : String) : Bool := containsSub needle.data hay.data

/-- The body of `ErrorRecovery.classify_error` after
`error_msg = str(error).lower()` (error_recovery.py lines 90-130). -/
def classify_msg (isWebDriver : Bool) (m : String) : String :=
  if isWebDriver then
    if pyIn "session" m && (pyIn "not found" m || pyIn "expired" m) then
      ErrorCode.SESSION_EXPIRED
    else if pyIn "no such element" m then ErrorCode.VIDEO_UNAVAILABLE
    else ErrorCode.APPIUM_ERROR
  else if pyIn "network" m || pyIn "connection" m || pyIn "timeout" m then
    (if pyIn "timeout" m then ErrorCode.REQUEST_TIMEOUT
     else ErrorCode.NETWORK_DISCONNECTED)
  else if pyIn "unavailable" m || pyIn "not found" m then
    ErrorCode.VIDEO_UNAVAILABLE
  else if pyIn "region" m || pyIn "blocked" m then
    ErrorCode.VIDEO_REGION_BLOCKED
  else if pyIn "age" m || pyIn "restricted" m then
    ErrorCode.VIDEO_AGE_RESTRICTED
  else if pyIn "stall" m || pyIn "frozen" m then ErrorCode.PLAYBACK_STALLED
  else if pyIn "crash" m then ErrorCode.APP_CRASH
  else if pyIn "memory" m then ErrorCode.MEMORY_LOW
  else if pyIn "lock" m || pyIn "screen" m then ErrorCode.SCREEN_LOCKED
  else if pyIn "battery" m then ErrorCode.BATTERY_LOW
  else ErrorCode.UNKNOWN

def classify_error (e : PyExc) : String := classify_msg e.webdriver (pyLower e.msg)

/-- Modelled from the spec: `DEVICE_TIMEOUT_SEC` is imported by
`bot_orchestrator.py` from `youtube.constants`, but its definition is not
in the provided tree; the spec fixes the device-progress-silence timeout at
20 minutes. -/
def DEVICE_TIMEOUT_SEC : Nat := 1200

/-- `f"Device timeout: no progress report for {DEVICE_TIMEOUT_SEC}s"`. -/
def device_timeout_message : String :=
  "Device timeout: no progress report for " ++ toString DEVICE_TIMEOUT_SEC ++ "s"

structure FinishPayload where
  success : Bool
  search_success : Bool
  watch_duration : ℚ
  error : Option String
deriving DecidableEq, Repr

/-- The fields of the `JobResult` dataclass the claims refer to
(`ad_stats` is omitted; `evidence` holds the aggregate dict handed to
`finish_job`). -/
structure JobResult where
  success : Bool := false
  duration_sec : ℚ := 0
  did_like : Bool := false
  did_comment : Bool := false
  did_subscribe : Bool := false
  did_playlist : Bool := false
  error_code : Option String := none
  error_message : Option String := none
  search_success : Bool := false
  evidence : Option FinishPayload := none
deriving DecidableEq, Repr

/-- The oracle environment of one `execute_job` run: `start_job_ok` is
whether `os.makedirs` in `evidence.start_job` succeeds; `launch` is the
outcome of `_launch_youtube`'s driver calls (`ok b` = no exception, app
foreground iff `b`); `nav` of `_navigate_to_video`; `watch` of
`_watch_video` (`ok d` = watched `d` seconds); `silence_after_watch` the
value of `time.time() - last_report_time` at the device-timeout check;
`interactions` the outcome of the `perform_interactions` call; and
`total_elapsed` the wall-clock duration read in the `finally` block. -/
structure JobEnv where
  start_job_ok : Bool
  launch : Except PyExc Bool
  nav : Except PyExc Bool
  watch : Except PyExc ℚ
  silence_after_watch : ℚ
  interactions : Except PyExc (Bool × Bool × Bool × Bool)
  total_elapsed : ℚ

/-- The `try` body of `execute_job` (bot_orchestrator.py lines 136-182):
the partially filled `JobResult` plus the exception that escaped the body,
if any. -/
def tryBody (env : JobEnv) : JobResult × Option PyExc :=
  match env.launch with
  | Except.error e => ({}, some e)
  | Except.ok running =>
    if running = false then
      ({}, some ⟨false, "YouTube failed to launch"⟩)
    else match env.nav with
      | Except.error e => ({}, some e)
      | Except.ok navOk =>
        if navOk = false then
          ({ search_success := false },
           some ⟨false, "Failed to navigate to video"⟩)
        else match env.watch with
          | Except.error e => ({ search_success := true }, some e)
          | Except.ok dur =>
            if env.silence_after_watch > (DEVICE_TIMEOUT_SEC : ℚ) then
              ({ search_success := true, duration_sec := dur },
               some ⟨false, device_timeout_message⟩)
            else match env.interactions with
              | Except.error e =>
                ({ search_success := true, duration_sec := dur }, some e)
              | Except.ok (l, c, s, p) =>
                ({ search_success := true, duration_sec := dur,
                   did_like := l, did_comment := c, did_subscribe := s,
                   did_playlist := p, success := true }, none)

/-- `YouTubeBotOrchestrator.execute_job`: `evidence.start_job` runs before
the `try`, so its failure propagates; otherwise the body's exception is
classified into the result, an error screenshot is captured, and the
`finally` block backfills the duration and hands the aggregate stats to
`finish_job`.  The second component is the ordered evidence-call log. -/
def execute_job (env : JobEnv) : Except PyExc (JobResult × List String) :=
  if env.start_job_ok = false then
    Except.error ⟨false, "evidence start_job failed: OSError"⟩
  else
    match tryBody env with
    | (r, none) =>
      Except.ok
        ({ r with
            duration_sec :=
              if r.duration_sec = 0 then env.total_elapsed else r.duration_sec
            evidence := some
              ⟨r.success, r.search_success,
               if r.duration_sec = 0 then env.total_elapsed else r.duration_sec,
               r.error_message⟩ },
         ["start_job", "capture_on_watch_end", "finish_job"])
    | (r, some e) =>
      Except.ok
        ({ r with
            success := false
            error_code := some (classify_error e)
            error_message := some e.msg
            duration_sec :=
              if r.duration_sec = 0 then env.total_elapsed else r.duration_sec
            evidence := some
              ⟨false, r.search_success,
               if r.duration_sec = 0 then env.total_elapsed else r.duration_sec,
               some e.msg⟩ },
         ["start_job", "capture_on_error", "finish_job"])

/-- **C9 (amended).** An exception from the initial `evidence.start_job`
(directory creation runs before the `try`) escapes `execute_job`; for every
other outcome `execute_job` returns a `JobResult` — never an exception —
whose evidence log starts with `start_job` and ends with `finish_job`
carrying the aggregate stats; on any exception raised inside the body the
error is classified into `error_code`, the message recorded, an error
screenshot captured, and `success` forced to `false`; on the success path
a watch-end screenshot is captured instead. -/
theorem execute_job_contract (env : JobEnv) :
    (env.start_job_ok = false →
      execute_job env
        = Except.error ⟨false, "evidence start_job failed: OSError"⟩)
    ∧ (env.start_job_ok = true →
      ∃ (r : JobResult) (log : List String),
        execute_job env = Except.ok (r, log)
        ∧ log.getLast? = some "finish_job"
        ∧ log.head? = some "start_job"
        ∧ r.evidence = some ⟨r.success, r.search_success, r.duration_sec,
            r.error_message⟩
        ∧ (∀ e, (tryBody env).2 = some e →
            r.success = false
            ∧ r.error_code = some (classify_error e)
            ∧ r.error_message = some e.msg
            ∧ "capture_on_error" ∈ log)
        ∧ ((tryBody env).2 = none →
            "capture_on_watch_end" ∈ log
            ∧ r.success = (tryBody env).1.success)) := by
  constructor
  · intro h
    unfold execute_job
    rw [h, if_pos rfl]
  · intro h
    unfold execute_job
    rw [h, if_neg (by simp)]
    cases htb : tryBody env with
    | mk r excOpt =>
      cases excOpt with
      | none =>
        refine ⟨_, _, rfl, rfl, rfl, rfl, ?_, ?_⟩
        · intro e he
          exact Option.noConfusion he
        · intro _
          exact ⟨by simp, rfl⟩
      | some e =>
        refine ⟨_, _, rfl, rfl, rfl, rfl, ?_, ?_⟩
        · intro e' he'
          have hee : e = e' := by
            injection he'
          subst hee
          exact ⟨rfl, rfl, rfl, by simp⟩
        · intro h0
          exact Option.noConfusion h0

def envStartFail : JobEnv :=
  { start_job_ok := false, launch := Except.ok true, nav := Except.ok true,
    watch := Except.ok 30, silence_after_watch := 0,
    interactions := Except.ok (false, false, false, false),
    total_elapsed := 42 }

/-- **C9 (counterexample).** When `os.makedirs` in `evidence.start_job`
raises — the call sits before the `try` block — `execute_job` propagates the
exception and returns no `JobResult`, so it is not true that `execute_job`
never propagates an exception. -/
theorem execute_job_raises_counterexample :
    execute_job envStartFail
      = Except.error ⟨false, "evidence start_job failed: OSError"⟩
    ∧ ∀ rl : JobResult × List String,
        execute_job envStartFail ≠ Except.ok rl := by
  refine ⟨rfl, ?_⟩
  intro rl h
  rw [show execute_job envStartFail
    = Except.error ⟨false, "evidence start_job failed: OSError"⟩ from rfl] at h
  exact Except.noConfusion h

def envNormal : JobEnv :=
  { start_job_ok := true, launch := Except.ok true, nav := Except.ok true,
    watch := Except.ok 30, silence_after_watch := 5,
    interactions := Except.error ⟨false,
      "perform_interactions got an unexpected keyword argument"⟩,
    total_elapsed := 40 }

/-- Witness for the amended C9, at a run whose interaction step raises (as
the `prob_playlist` keyword makes it do): the job still produces an `ok`
result with the error classified and the evidence finalized. -/
theorem execute_job_contract_witness :
    ∃ (r : JobResult) (log : List String),
      execute_job envNormal = Except.ok (r, log)
      ∧ log.getLast? = some "finish_job"
      ∧ log.head? = some "start_job"
      ∧ r.evidence = some ⟨r.success, r.search_success, r.duration_sec,
          r.error_message⟩
      ∧ (∀ e, (tryBody envNormal).2 = some e →
          r.success = false
          ∧ r.error_code = some (classify_error e)
          ∧ r.error_message = some e.msg
          ∧ "capture_on_error" ∈ log)
      ∧ ((tryBody envNormal).2 = none →
          "capture_on_watch_end" ∈ log
          ∧ r.success = (tryBody envNormal).1.success) :=
  (execute_job_contract envNormal).2 rfl

/-- **C4.** If, when `execute_job`'s watch step returns, no progress
callback has fired for more than `DEVICE_TIMEOUT_SEC` (20 minutes), the
orchestrator raises the device-timeout error, which is classified
(`"timeout"` in the lowered message gives E1002) and reported in the
returned `JobResult`. -/
theorem device_timeout_classified (env : JobEnv)
    (h0 : env.start_job_ok = true) (h1 : env.launch = Except.ok true)
    (h2 : env.nav = Except.ok true) (h3 : ∃ d, env.watch = Except.ok d)
    (h4 : env.silence_after_watch > (DEVICE_TIMEOUT_SEC : ℚ)) :
    ∃ (r : JobResult) (log : List String),
      execute_job env = Except.ok (r, log)
      ∧ r.success = false
      ∧ r.error_message = some device_timeout_message
      ∧ r.error_code = some ErrorCode.REQUEST_TIMEOUT
      ∧ classify_error ⟨false, device_timeout_message⟩
          = ErrorCode.REQUEST_TIMEOUT := by
  obtain ⟨d, hw⟩ := h3
  have hclass : classify_error ⟨false, device_timeout_message⟩
      = ErrorCode.REQUEST_TIMEOUT := by decide
  have htb : tryBody env
      = ({ search_success := true, duration_sec := d },
         some ⟨false, device_timeout_message⟩) := by
    unfold tryBody
    rw [h1, h2, hw]
    show (if env.silence_after_watch > ((DEVICE_TIMEOUT_SEC : Nat) : ℚ)
      then _ else _) = _
    rw [if_pos h4]
  unfold execute_job
  rw [h0, if_neg (by simp), htb]
  refine ⟨_, _, rfl, rfl, rfl, ?_, hclass⟩
  show some (classify_error ⟨false, device_timeout_message⟩) = _
  rw [hclass]

def envTimeout : JobEnv :=
  { start_job_ok := true, launch := Except.ok true, nav := Except.ok true,
    watch := Except.ok 30, silence_after_watch := 1300,
    interactions := Except.ok (false, false, false, false),
    total_elapsed := 1500 }

/-- Witness for C4: a run whose last progress report is 1300 seconds old
ends with `success = false` and error code E1002. -/
theorem device_timeout_classified_witness :
    ∃ (r : JobResult) (log : List String),
      execute_job envTimeout = Except.ok (r, log)
      ∧ r.success = false
      ∧ r.error_message = some device_timeout_message
      ∧ r.error_code = some ErrorCode.REQUEST_TIMEOUT
      ∧ classify_error ⟨false, device_timeout_message⟩
          = ErrorCode.REQUEST_TIMEOUT :=
  device_timeout_classified envTimeout rfl rfl rfl ⟨30, rfl⟩ (by decide)

end DoaiMe
